import Mathlib

/-!
Shallow embedding of the sync subsystem of the LinkLoom bookmark manager:
`app/services/sync.py`, the sync/folder endpoints of `app/api/routes.py`,
and the stop-request entry point of `app/services/dead_link_jobs.py`.

Modelling conventions, used throughout:
* Machine state is passed explicitly: the SQLAlchemy session becomes a `Db`
  value threaded through each operation; every query is a pure function of it.
* Python `datetime` values are modelled as `Int` instants (the code only ever
  compares them and copies them around; a tz-naive value is interpreted as
  UTC by `_server_time_is_newer_or_equal`, which collapses to the identity in
  the instant model).  `utcnow()` and the ORM `onupdate=utcnow` bump are
  modelled by an explicit `now` parameter in `SyncCtx`.
* External primitives are parameters of `SyncCtx`: `normalizeUrl` stands for
  `app.services.common.normalize_url` (a pure wrapper around `urllib.parse`,
  whose internals no claim depends on) and `parseTime` stands for
  `dateutil.parser.isoparse`, with `none` modelling a raised parse exception.
* A Python dict field that may be absent is an outer `Option`; where the code
  distinguishes a key that is present with value `None` from an absent key,
  the field is `Option (Option _)`.
* Database ids are assigned from explicit `next…Id` counters at insertion
  time (the store's identity-generation strategy).
* The `Tag` table is elided: `parse_tags` output is stored inline on the
  bookmark row, which is the only way any embedded operation reads tags.
-/

namespace LinkLoom

/-- Python `str.lower()` on the code's ASCII inputs (structurally recursive so
that concrete instances evaluate; `String.toLower` is kernel-opaque). -/
def pyLower (s : String) : String := String.mk (s.data.map Char.toLower)

/-- ASCII whitespace, as stripped by Python `str.strip()`. -/
def pyIsSpace (c : Char) : Bool :=
  c = ' ' || c = '\t' || c = '\n' || c = '\r' || c = '\x0b' || c = '\x0c'

/-- Python `str.strip()` (structurally recursive counterpart of
`String.trim`). -/
def pyStrip (s : String) : String :=
  String.mk (((s.data.dropWhile pyIsSpace).reverse.dropWhile pyIsSpace).reverse)

/-- Python `sep.join(xs)`. -/
def pyJoin (sep : String) : List String → String
  | [] => ""
  | [x] => x
  | x :: xs => x ++ sep ++ pyJoin sep xs

/-- Python truthiness of an optional string: `None` and `""` are falsy. -/
def strTruthy : Option String → Bool
  | none => false
  | some s => s ≠ ""

/-- Python `a or b` on optional strings. -/
def pyOrStr (a b : Option String) : Option String :=
  if strTruthy a then a else b

/-- Python truthiness of an optional int: `None` and `0` are falsy. -/
def natTruthy : Option Nat → Bool
  | none => false
  | some n => n ≠ 0

/-- Python `a or b` on optional ints. -/
def pyOrNat (a b : Option Nat) : Option Nat :=
  if natTruthy a then a else b

/-- Association-list read, modelling `dict.get` (string keys; `get(None)`
returns `None` because no key is `None`). -/
def mappingGet (m : List (String × Nat)) : Option String → Option Nat
  | none => none
  | some k => (m.find? (fun kv => kv.1 == k)).map (fun kv => kv.2)

/-- The three sync-first mode literals of `app/services/sync.py`. -/
def SYNC_MODE_REPLACE_LOCAL : String := "replace_local_with_server"

def SYNC_MODE_REPLACE_SERVER : String := "replace_server_with_local"

def SYNC_MODE_TWO_WAY : String := "two_way_merge"

def SYNC_FIRST_MODES : List String :=
  [SYNC_MODE_REPLACE_LOCAL, SYNC_MODE_REPLACE_SERVER, SYNC_MODE_TWO_WAY]

/-- The `SYNC_CONFIRM_PHRASES` dict, as a lookup returning `none` off-key. -/
def SYNC_CONFIRM_PHRASES : String → Option String := fun mode =>
  if mode = SYNC_MODE_REPLACE_LOCAL then some "DELETE ALL LOCAL BOOKMARKS"
  else if mode = SYNC_MODE_REPLACE_SERVER then some "DELETE ALL SERVER BOOKMARKS"
  else if mode = SYNC_MODE_TWO_WAY then some "SYNC BOOKMARKS BOTH WAYS"
  else none

/-- Backward-compatible alias `CONFIRM_PHRASE` for the replace-local phrase. -/
def CONFIRM_PHRASE : String := "DELETE ALL LOCAL BOOKMARKS"

/-- The helper `parse_tags` of `app/services/common.py`: split on `,`/`;`,
strip, lowercase, deduplicate and sort ascending. -/
def parse_tags (raw : String) : List String :=
  if raw = "" then []
  else
    let tokens := ((raw.replace ";" ",").splitOn ",").map (fun t => pyLower (pyStrip t))
    ((tokens.filter (fun t => t ≠ "")).eraseDups).insertionSort (fun a b => a ≤ b)

/-- A `bookmarks` row.  Content/link-check columns (`link_status`,
`last_checked_at`, `created_at`) are elided: no embedded operation reads
them. -/
structure Bookmark where
  id : Nat
  userId : Nat
  folderId : Option Nat
  url : String
  normalizedUrl : String
  title : Option String
  notes : Option String
  tags : List String
  updatedAt : Int
  deletedAt : Option Int
  deletedBy : Option Nat
deriving Repr, DecidableEq

/-- A `folders` row (`created_at` elided, never read). -/
structure Folder where
  id : Nat
  userId : Nat
  name : String
  parentId : Option Nat
  updatedAt : Int
deriving Repr, DecidableEq

/-- The dict produced by `serialize_bookmark_for_sync`. -/
structure SerializedBookmark where
  id : Nat
  url : String
  title : Option String
  notes : Option String
  folderId : Option Nat
  tags : List String
  updatedAt : Int
  deletedAt : Option Int
deriving Repr, DecidableEq

/-- The dict produced by `serialize_folder_for_sync`. -/
structure SerializedFolder where
  id : Nat
  name : String
  parentId : Option Nat
  updatedAt : Int
deriving Repr, DecidableEq

/-- An event payload: the full post-mutation serialization of the entity. -/
inductive SyncPayload where
  | bookmark (b : SerializedBookmark)
  | folder (f : SerializedFolder)
deriving Repr, DecidableEq

/-- A `sync_events` row. -/
structure SyncEvent where
  id : Nat
  userId : Nat
  entityType : String
  entityId : Option Nat
  action : String
  payload : SyncPayload
deriving Repr, DecidableEq

/-- The durable store visible to the sync subsystem. -/
structure Db where
  bookmarks : List Bookmark
  folders : List Folder
  events : List SyncEvent
  nextBookmarkId : Nat
  nextFolderId : Nat
  nextEventId : Nat
deriving Repr, DecidableEq

/-- External primitives and the clock, per the conventions above.
`fetchExtractText` stands for the text field of `fetch_and_extract` (outbound
HTTP, an external collaborator). -/
structure SyncCtx where
  normalizeUrl : String → String
  parseTime : String → Option Int
  now : Int
  fetchExtractText : String → String := fun _ => ""

/-- The function `serialize_bookmark_for_sync` of `app/services/sync.py`. -/
def serialize_bookmark_for_sync (b : Bookmark) : SerializedBookmark :=
  { id := b.id, url := b.url, title := b.title, notes := b.notes,
    folderId := b.folderId, tags := b.tags, updatedAt := b.updatedAt,
    deletedAt := b.deletedAt }

/-- The function `serialize_folder_for_sync` of `app/services/sync.py`. -/
def serialize_folder_for_sync (f : Folder) : SerializedFolder :=
  { id := f.id, name := f.name, parentId := f.parentId, updatedAt := f.updatedAt }

/-- The function `log_sync_event`: append one event row inside the caller's
transaction, its id taken from the store's identity generator. -/
def log_sync_event (db : Db) (userId : Nat) (entityType : String)
    (entityId : Option Nat) (action : String) (payload : SyncPayload) : Db :=
  { db with
    events := db.events ++
      [{ id := db.nextEventId, userId := userId, entityType := entityType,
         entityId := entityId, action := action, payload := payload }]
    nextEventId := db.nextEventId + 1 }

/-- The helper `_parse_client_time`: falsy input or a parse failure yields
`None`. -/
def _parse_client_time (parseTime : String → Option Int) :
    Option String → Option Int
  | none => none
  | some s => if s = "" then none else parseTime s

/-- The helper `_normalize_notes_value`: strip, drop empty and the literal
string `"none"` (case-insensitively). -/
def _normalize_notes_value (value : Option String) : Option String :=
  let text := pyStrip (value.getD "")
  if text = "" then none
  else if pyLower text = "none" then none
  else some text

/-- The helper `_server_time_is_newer_or_equal`: `False` whenever either side
is missing, otherwise instant comparison (tz normalization is the identity in
the instant model). -/
def _server_time_is_newer_or_equal (serverTime clientTime : Option Int) : Bool :=
  match serverTime, clientTime with
  | some s, some c => s ≥ c
  | _, _ => false

/-- The helper `_apply_tags` (the `Tag` table elided; the cleaned names are
stored inline). -/
def _apply_tags (b : Bookmark) (tagNames : List String) : Bookmark :=
  { b with tags := parse_tags (pyJoin "," tagNames) }

/-- The `bookmark` sub-dict of a push operation.  `title` and `folderId` use a
double `Option` because the code distinguishes an absent key from a key that
is present with value `None`; for `url`, `notes` and `tags` the code treats
present-with-`None` exactly like absent-or-empty, so a single `Option`
suffices (`some` covers a present non-null value, with `""`/`[]` standing for
a present null where the source coerces it with `or`). -/
structure PushBookmarkData where
  id : Option Nat := none
  url : Option String := none
  title : Option (Option String) := none
  notes : Option String := none
  folderId : Option (Option Nat) := none
  tags : Option (List String) := none
  updatedAt : Option String := none
deriving Repr, DecidableEq

/-- The `folder` sub-dict of a push operation. -/
structure PushFolderData where
  id : Option Nat := none
  name : Option (Option String) := none
  parentId : Option (Option Nat) := none
  updatedAt : Option String := none
deriving Repr, DecidableEq

/-- A push operation dict. -/
structure PushOp where
  op : Option String := none
  entityType : Option String := none
  id : Option Nat := none
  updatedAt : Option String := none
  bookmark : Option PushBookmarkData := none
  folder : Option PushFolderData := none
deriving Repr, DecidableEq

/-- A per-operation result dict of `apply_push_operation`. -/
structure PushResult where
  status : String
  reason : Option String := none
  bookmarkId : Option Nat := none
  folderId : Option Nat := none
deriving Repr, DecidableEq

/-- Bookmark lookup at the top of `_apply_bookmark_push_operation`:
`bookmark_data.get("id") or op.get("id")` guarded by int truthiness. -/
def _push_bookmark_lookup (user : Nat) (db : Db) (op : PushOp) : Option Bookmark :=
  match pyOrNat (op.bookmark.getD {}).id op.id with
  | some bid =>
      if bid ≠ 0 then
        db.bookmarks.find? (fun b => b.id == bid && b.userId == user)
      else none
  | none => none

/-- Client timestamp selection of `_apply_bookmark_push_operation`:
`_parse_client_time(bookmark_data.get("updated_at") or op.get("updated_at"))`. -/
def _push_bookmark_client_time (ctx : SyncCtx) (op : PushOp) : Option Int :=
  _parse_client_time ctx.parseTime (pyOrStr (op.bookmark.getD {}).updatedAt op.updatedAt)

/-- Replace the row with id `b.id` by `b`, modelling an in-place ORM update. -/
def updateBookmarkRow (db : Db) (b : Bookmark) : Db :=
  { db with bookmarks := db.bookmarks.map (fun x => if x.id == b.id then b else x) }

/-- Scanner for `firstByUpdatedAtDesc`: keep the current row unless a later
row has a strictly larger `updatedAt`. -/
def firstByUpdatedAtDescGo (cur : Bookmark) : List Bookmark → Bookmark
  | [] => cur
  | b :: rest => firstByUpdatedAtDescGo (if b.updatedAt > cur.updatedAt then b else cur) rest

/-- SQL `ORDER BY updated_at DESC ... FIRST`: the first listed row of maximal
`updatedAt` (the head of a stable descending sort). -/
def firstByUpdatedAtDesc : List Bookmark → Option Bookmark
  | [] => none
  | b :: rest => some (firstByUpdatedAtDescGo b rest)

/-- The restore-and-overwrite of a soft-deleted row in the `create` branch of
`_apply_bookmark_push_operation` (`updatedAt` is the ORM `onupdate` bump). -/
def restoreDeletedBookmark (ctx : SyncCtx) (data : PushBookmarkData)
    (rawUrl normalizedUrl : String) (b : Bookmark) : Bookmark :=
  let b1 := { b with deletedAt := (none : Option Int), deletedBy := (none : Option Nat),
                     url := rawUrl, normalizedUrl := normalizedUrl,
                     updatedAt := ctx.now }
  let b2 := if strTruthy (data.title.getD none) then { b1 with title := data.title.getD none } else b1
  let b3 := match _normalize_notes_value data.notes with
    | some n => { b2 with notes := some n }
    | none => b2
  let b4 := match data.folderId with
    | some v => { b3 with folderId := v }
    | none => b3
  match data.tags with
  | some ts => _apply_tags b4 ts
  | none => b4

/-- Predicate of the `existing_active` query in the create branch of
`_apply_bookmark_push_operation`. -/
def activeUrlMatch (user : Nat) (normalizedUrl : String) (b : Bookmark) : Bool :=
  b.userId == user && b.normalizedUrl == normalizedUrl && b.deletedAt.isNone

/-- Predicate of the `existing_deleted` query in the create branch of
`_apply_bookmark_push_operation`. -/
def deletedUrlMatch (user : Nat) (normalizedUrl : String) (b : Bookmark) : Bool :=
  b.userId == user && b.normalizedUrl == normalizedUrl && b.deletedAt.isSome

/-- The `raw_url` of a push bookmark create:
`(bookmark_data.get("url") or "").strip()`. -/
def pushCreateRawUrl (op : PushOp) : String :=
  pyStrip ((op.bookmark.getD {}).url.getD "")

/-- The fresh row inserted by the create branch when no row matches the
normalized URL, tags applied after the flush. -/
def newBookmarkFromPush (ctx : SyncCtx) (user : Nat) (db : Db) (op : PushOp) : Bookmark :=
  _apply_tags
    { id := db.nextBookmarkId, userId := user,
      folderId := (op.bookmark.getD {}).folderId.getD none,
      url := pushCreateRawUrl op,
      normalizedUrl := ctx.normalizeUrl (pushCreateRawUrl op),
      title := (op.bookmark.getD {}).title.getD none,
      notes := _normalize_notes_value (op.bookmark.getD {}).notes,
      tags := [], updatedAt := ctx.now,
      deletedAt := none, deletedBy := none }
    ((op.bookmark.getD {}).tags.getD [])

/-- The `create` branch of `_apply_bookmark_push_operation`: URL dedup by
normalized URL — active match is a no-op, a soft-deleted match is restored
and overwritten, otherwise a new row is inserted. -/
def _apply_bookmark_push_create (ctx : SyncCtx) (user : Nat) (db : Db)
    (op : PushOp) : PushResult × Db :=
  let data := op.bookmark.getD {}
  let rawUrl := pushCreateRawUrl op
  let normalizedUrl := ctx.normalizeUrl rawUrl
  if normalizedUrl = "" then
    ({ status := "skipped", reason := some "invalid_url" }, db)
  else
    match db.bookmarks.find? (activeUrlMatch user normalizedUrl) with
    | some existingActive =>
        ({ status := "exists", bookmarkId := some existingActive.id }, db)
    | none =>
      match firstByUpdatedAtDesc (db.bookmarks.filter (deletedUrlMatch user normalizedUrl)) with
      | some existingDeleted =>
          let restored := restoreDeletedBookmark ctx data rawUrl normalizedUrl existingDeleted
          let db := updateBookmarkRow db restored
          let db := log_sync_event db user "bookmark" (some restored.id) "restore"
            (.bookmark (serialize_bookmark_for_sync restored))
          ({ status := "restored", bookmarkId := some restored.id }, db)
      | none =>
          let nb : Bookmark := newBookmarkFromPush ctx user db op
          let db := { db with bookmarks := db.bookmarks ++ [nb],
                              nextBookmarkId := db.nextBookmarkId + 1 }
          let db := log_sync_event db user "bookmark" (some nb.id) "create"
            (.bookmark (serialize_bookmark_for_sync nb))
          ({ status := "created", bookmarkId := some nb.id }, db)

/-- The update/delete/restore branches of `_apply_bookmark_push_operation`,
reached after the bookmark is found and the last-write-wins check has passed. -/
def _apply_bookmark_push_mutation (ctx : SyncCtx) (user : Nat) (db : Db)
    (op : PushOp) (bookmark : Bookmark) : PushResult × Db :=
  let action := pyLower (op.op.getD "")
  let data := op.bookmark.getD {}
  if action = "update" then
        let b1 := match data.url with
          | some u =>
              let u2 := if u ≠ "" then u else bookmark.url
              { bookmark with url := u2, normalizedUrl := ctx.normalizeUrl u2 }
          | none => bookmark
        let b2 := match data.title with
          | some v => { b1 with title := v }
          | none => b1
        let b3 := match data.folderId with
          | some v => { b2 with folderId := v }
          | none => b2
        let b4 := match data.notes with
          | some _ =>
              match _normalize_notes_value data.notes with
              | some n => { b3 with notes := some n }
              | none => b3
          | none => b3
        let b5 := match data.tags with
          | some ts => _apply_tags b4 ts
          | none => b4
        let b6 := { b5 with deletedAt := (none : Option Int),
                            deletedBy := (none : Option Nat), updatedAt := ctx.now }
        let db := updateBookmarkRow db b6
        let db := log_sync_event db user "bookmark" (some b6.id) "update"
          (.bookmark (serialize_bookmark_for_sync b6))
        ({ status := "updated", bookmarkId := some b6.id }, db)
      else if action = "delete" then
        let b1 := { bookmark with deletedAt := some ctx.now, deletedBy := some user,
                                  updatedAt := ctx.now }
        let db := updateBookmarkRow db b1
        let db := log_sync_event db user "bookmark" (some b1.id) "delete"
          (.bookmark (serialize_bookmark_for_sync b1))
        ({ status := "deleted", bookmarkId := some b1.id }, db)
      else if action = "restore" then
        let b1 := { bookmark with deletedAt := (none : Option Int),
                                  deletedBy := (none : Option Nat), updatedAt := ctx.now }
        let db := updateBookmarkRow db b1
        let db := log_sync_event db user "bookmark" (some b1.id) "restore"
          (.bookmark (serialize_bookmark_for_sync b1))
        ({ status := "restored", bookmarkId := some b1.id }, db)
      else
        ({ status := "skipped", reason := some "unsupported_operation" }, db)

/-- The function `_apply_bookmark_push_operation` of `app/services/sync.py`:
dispatch to the create branch, else look the bookmark up and apply the
last-write-wins guard before mutating. -/
def _apply_bookmark_push_operation (ctx : SyncCtx) (user : Nat) (db : Db)
    (op : PushOp) : PushResult × Db :=
  if pyLower (op.op.getD "") = "create" then
    _apply_bookmark_push_create ctx user db op
  else
    match _push_bookmark_lookup user db op with
    | none => ({ status := "skipped", reason := some "bookmark_not_found" }, db)
    | some bookmark =>
      if _server_time_is_newer_or_equal (some bookmark.updatedAt)
          (_push_bookmark_client_time ctx op) then
        ({ status := "skipped", reason := some "server_newer_or_equal" }, db)
      else
        _apply_bookmark_push_mutation ctx user db op bookmark

/-- The bookmark-detach step of `_delete_folder_tree_for_sync`: clear the
folder reference of one bookmark and log an update event. -/
def detachBookmarkFromFolder (ctx : SyncCtx) (user : Nat) (db : Db) (b : Bookmark) : Db :=
  let b1 := { b with folderId := (none : Option Nat), updatedAt := ctx.now }
  let db := updateBookmarkRow db b1
  log_sync_event db user "bookmark" (some b1.id) "update"
    (.bookmark (serialize_bookmark_for_sync b1))

/-- The recursive `_delete_folder_tree_for_sync`: children first, then detach
the folder's bookmarks, log one delete event and remove the row.  The source
recursion is unbounded and diverges on a cyclic store; `fuel` (instantiated
with the folder count, which bounds the depth of every acyclic store) makes
the embedding total, and no claim evaluates this on a cyclic store. -/
def _delete_folder_tree_for_sync (ctx : SyncCtx) (user : Nat) :
    Nat → Db → Folder → Db
  | 0, db, _ => db
  | fuel + 1, db, folder =>
    let children := db.folders.filter (fun c => c.parentId == some folder.id)
    let db := children.foldl (fun db c => _delete_folder_tree_for_sync ctx user fuel db c) db
    let attached := db.bookmarks.filter (fun b => b.folderId == some folder.id)
    let db := attached.foldl (fun db b => detachBookmarkFromFolder ctx user db b) db
    let db := log_sync_event db user "folder" (some folder.id) "delete"
      (.folder (serialize_folder_for_sync folder))
    { db with folders := db.folders.filter (fun f => f.id ≠ folder.id) }

/-- Folder lookup at the top of `_apply_folder_push_operation`; note the
source guards with `if folder_id is not None`, not int truthiness. -/
def _push_folder_lookup (user : Nat) (db : Db) (op : PushOp) : Option Folder :=
  match pyOrNat (op.folder.getD {}).id op.id with
  | some fid => db.folders.find? (fun f => f.id == fid && f.userId == user)
  | none => none

/-- Client timestamp selection of `_apply_folder_push_operation`. -/
def _push_folder_client_time (ctx : SyncCtx) (op : PushOp) : Option Int :=
  _parse_client_time ctx.parseTime (pyOrStr (op.folder.getD {}).updatedAt op.updatedAt)

/-- Replace the row with id `f.id` by `f`, modelling an in-place ORM update. -/
def updateFolderRow (db : Db) (f : Folder) : Db :=
  { db with folders := db.folders.map (fun x => if x.id == f.id then f else x) }

/-- The name default of folder push: `(… or "").strip() or "Untitled Folder"`. -/
def folderNameOrUntitled (v : Option String) : String :=
  let t := pyStrip (v.getD "")
  if t = "" then "Untitled Folder" else t

/-- The `create` branch of `_apply_folder_push_operation`: dedup by
(name, parent); an invalid parent reference is cleared. -/
def _apply_folder_push_create (ctx : SyncCtx) (user : Nat) (db : Db)
    (op : PushOp) : PushResult × Db :=
  let data := op.folder.getD {}
  let name := folderNameOrUntitled (data.name.getD none)
  let parentId0 := data.parentId.getD none
  let parentId := match parentId0 with
    | some p =>
        if (db.folders.find? (fun f => f.id == p && f.userId == user)).isSome
        then some p else none
    | none => none
  match db.folders.find? (fun f =>
      f.userId == user && f.name == name && f.parentId == parentId) with
  | some existing => ({ status := "exists", folderId := some existing.id }, db)
  | none =>
      let nf : Folder := { id := db.nextFolderId, userId := user, name := name,
                           parentId := parentId, updatedAt := ctx.now }
      let db := { db with folders := db.folders ++ [nf],
                          nextFolderId := db.nextFolderId + 1 }
      let db := log_sync_event db user "folder" (some nf.id) "create"
        (.folder (serialize_folder_for_sync nf))
      ({ status := "created", folderId := some nf.id }, db)

/-- The field edits of the folder update/move branch, with the `changed`
flag (`changed1 or changed2` in the source): rename when the (defaulted)
name differs; re-parent after remapping a direct self-parent or a missing
parent to `None` — the direct self-parent remap is the only cycle guard. -/
def folderPatchFromPush (user : Nat) (db : Db) (folder : Folder)
    (data : PushFolderData) : Folder × Bool :=
  let (f1, changed1) := match data.name with
    | some v =>
        let name := folderNameOrUntitled v
        if folder.name ≠ name then ({ folder with name := name }, true)
        else (folder, false)
    | none => (folder, false)
  match data.parentId with
  | some v =>
      let newParent0 : Option Nat := if v == some folder.id then none else v
      let newParent : Option Nat := match newParent0 with
        | some p =>
            if (db.folders.find? (fun (f : Folder) => f.id == p && f.userId == user)).isSome
            then some p else none
        | none => none
      if f1.parentId ≠ newParent then ({ f1 with parentId := newParent }, true)
      else (f1, changed1)
  | none => (f1, changed1)

/-- The update/move/delete branches of `_apply_folder_push_operation`,
reached after the folder is found and the last-write-wins check has passed. -/
def _apply_folder_push_mutation (ctx : SyncCtx) (user : Nat) (db : Db)
    (op : PushOp) (folder : Folder) : PushResult × Db :=
  let action := pyLower (op.op.getD "")
  let data := op.folder.getD {}
  if action = "update" ∨ action = "move" then
    let fc := folderPatchFromPush user db folder data
    if fc.2 then
      let f3 := { fc.1 with updatedAt := ctx.now }
      let db := updateFolderRow db f3
      let db := log_sync_event db user "folder" (some f3.id) "update"
        (.folder (serialize_folder_for_sync f3))
      ({ status := "updated", folderId := some f3.id }, db)
    else
      ({ status := "skipped", reason := some "no_changes" }, db)
  else if action = "delete" then
    let db := _delete_folder_tree_for_sync ctx user db.folders.length db folder
    ({ status := "deleted", folderId := some folder.id }, db)
  else
    ({ status := "skipped", reason := some "unsupported_operation" }, db)

/-- The function `_apply_folder_push_operation` of `app/services/sync.py`:
dispatch to the create branch, else look the folder up and apply the
last-write-wins guard before mutating. -/
def _apply_folder_push_operation (ctx : SyncCtx) (user : Nat) (db : Db)
    (op : PushOp) : PushResult × Db :=
  if pyLower (op.op.getD "") = "create" then
    _apply_folder_push_create ctx user db op
  else
    match _push_folder_lookup user db op with
    | none => ({ status := "skipped", reason := some "folder_not_found" }, db)
    | some folder =>
      if _server_time_is_newer_or_equal (some folder.updatedAt)
          (_push_folder_client_time ctx op) then
        ({ status := "skipped", reason := some "server_newer_or_equal" }, db)
      else
        _apply_folder_push_mutation ctx user db op folder

/-- The dispatcher `apply_push_operation`:
`(op.get("entity_type") or "bookmark").strip().lower()`. -/
def apply_push_operation (ctx : SyncCtx) (user : Nat) (db : Db)
    (op : PushOp) : PushResult × Db :=
  let raw := op.entityType.getD ""
  let entityType := pyLower (pyStrip (if raw ≠ "" then raw else "bookmark"))
  if entityType = "folder" then _apply_folder_push_operation ctx user db op
  else _apply_bookmark_push_operation ctx user db op

/-- Request body of the folder `PATCH` endpoint `folders_update`; outer
`Option` marks key presence. -/
structure FolderPatchPayload where
  name : Option (Option String) := none
  parentId : Option (Option Nat) := none
deriving Repr, DecidableEq

/-- The endpoint `folders_update` (`PATCH /folders/<id>` in
`app/api/routes.py`): `none` models the 404 branch; otherwise the name is
replaced when non-blank and the parent is set unconditionally from the
payload — the source performs no cycle or self-parent validation here. -/
def folders_update (ctx : SyncCtx) (user : Nat) (db : Db) (folderId : Nat)
    (payload : FolderPatchPayload) : Option (Folder × Db) :=
  match db.folders.find? (fun f => f.id == folderId && f.userId == user) with
  | none => none
  | some folder =>
    let f1 := match payload.name with
      | some v =>
          let n := pyStrip (v.getD "")
          { folder with name := if n ≠ "" then n else folder.name }
      | none => folder
    let f2 := match payload.parentId with
      | some v => { f1 with parentId := v }
      | none => f1
    let f3 := { f2 with updatedAt := ctx.now }
    let db := updateFolderRow db f3
    let db := log_sync_event db user "folder" (some f3.id) "update"
      (.folder (serialize_folder_for_sync f3))
    some (f3, db)

/-- Strict-ancestor relation of the folder parent graph: `IsAncestor fs a b`
holds when following parent links from folder id `b` reaches id `a`. -/
inductive IsAncestor (fs : List Folder) : Nat → Nat → Prop where
  | parent {f : Folder} {p : Nat} (hf : f ∈ fs) (hp : f.parentId = some p) :
      IsAncestor fs p f.id
  | step {f : Folder} {p a : Nat} (hf : f ∈ fs) (hp : f.parentId = some p)
      (h : IsAncestor fs a p) : IsAncestor fs a f.id

/-- A row of the parsed local-folder list (`_parse_local_folders` output):
ids are non-empty strings, `parentId` is `None` or a non-empty string. -/
structure LocalFolderRow where
  id : String
  parentId : Option String
  title : String
deriving Repr, DecidableEq

/-- A row of the parsed local-bookmark list (`_parse_local_bookmarks` output). -/
structure LocalBookmarkRow where
  id : Option String := none
  url : String
  normalizedUrl : String
  title : Option String := none
  notes : Option String := none
  tags : List String := []
  folderLocalId : Option String := none
  folderPath : List String := []
  updatedAt : Option String := none
deriving Repr, DecidableEq

/-- Python dict assignment `m[k] = v` on a string-keyed assoc list. -/
def assocSet (m : List (String × Nat)) (k : String) (v : Nat) : List (String × Nat) :=
  if (m.find? (fun kv => kv.1 == k)).isSome then
    m.map (fun kv => if kv.1 == k then (k, v) else kv)
  else m ++ [(k, v)]

/-- Key-membership test `k in mapping` (a `None` key is never present). -/
def mappingHasKey (m : List (String × Nat)) : Option String → Bool
  | none => false
  | some k => (m.find? (fun kv => kv.1 == k)).isSome

/-- The `(parent_id, name) → folder id` cache of
`_ensure_server_folders_from_local`. -/
abbrev FolderCache : Type := List ((Option Nat × String) × Nat)

/-- Python dict assignment on the folder cache. -/
def cacheSet (c : FolderCache) (k : Option Nat × String) (v : Nat) : FolderCache :=
  if (List.find? (fun kv => kv.1 == k) c).isSome then
    List.map (fun kv => if kv.1 == k then (k, v) else kv) c
  else c ++ [(k, v)]

/-- Cache read `cache[key]` guarded by `key in cache`. -/
def cacheGet (c : FolderCache) (k : Option Nat × String) : Option Nat :=
  (List.find? (fun kv => kv.1 == k) c).map (fun kv => kv.2)

/-- The look-up-or-create step shared by every folder-materialising site of
`_ensure_server_folders_from_local`: query by (user, name, parent), create
and log a `create` event when absent. -/
def lookupOrCreateFolder (ctx : SyncCtx) (user : Nat) (db : Db) (name : String)
    (parentId : Option Nat) : Folder × Db :=
  match db.folders.find? (fun f =>
      f.userId == user && f.name == name && f.parentId == parentId) with
  | some f => (f, db)
  | none =>
      let nf : Folder := { id := db.nextFolderId, userId := user, name := name,
                           parentId := parentId, updatedAt := ctx.now }
      let db := { db with folders := db.folders ++ [nf],
                          nextFolderId := db.nextFolderId + 1 }
      let db := log_sync_event db user "folder" (some nf.id) "create"
        (.folder (serialize_folder_for_sync nf))
      (nf, db)

/-- State threaded through one reconciliation pass of
`_ensure_server_folders_from_local`. -/
structure ReconcileState where
  db : Db
  mapping : List (String × Nat)
  cache : FolderCache

/-- Materialise one pending local folder whose parent is resolved (or absent):
the body of the progressing branch of the fixed-point loop. -/
def materializeRow (ctx : SyncCtx) (user : Nat) (st : ReconcileState)
    (row : LocalFolderRow) : ReconcileState :=
  let parentServerId := mappingGet st.mapping row.parentId
  let (folder, db) := lookupOrCreateFolder ctx user st.db row.title parentServerId
  { db := db,
    mapping := assocSet st.mapping row.id folder.id,
    cache := cacheSet st.cache (parentServerId, row.title) folder.id }

/-- Result of one `for`-sweep over the pending dict. -/
structure PassResult where
  pending : List LocalFolderRow
  st : ReconcileState
  progressed : Bool

/-- One sweep over the snapshot of `pending`: skip rows whose (truthy) parent
is not yet mapped, materialise the rest; later rows in the same sweep see the
updated mapping, exactly as the source pops from the live dict. -/
def reconcilePass (ctx : SyncCtx) (user : Nat) :
    List LocalFolderRow → ReconcileState → PassResult
  | [], st => { pending := [], st := st, progressed := false }
  | row :: rest, st =>
    if strTruthy row.parentId && !mappingHasKey st.mapping row.parentId then
      let r := reconcilePass ctx user rest st
      { r with pending := row :: r.pending }
    else
      let st2 := materializeRow ctx user st row
      let r := reconcilePass ctx user rest st2
      { r with progressed := true }

/-- The no-progress fallback: force-attach every remaining pending folder at
the root, ignoring its unresolved parent reference. -/
def reconcileFallback (ctx : SyncCtx) (user : Nat) :
    List LocalFolderRow → ReconcileState → ReconcileState
  | [], st => st
  | row :: rest, st =>
    let (folder, db) := lookupOrCreateFolder ctx user st.db row.title none
    reconcileFallback ctx user rest
      { db := db,
        mapping := assocSet st.mapping row.id folder.id,
        cache := cacheSet st.cache (none, row.title) folder.id }

theorem reconcilePass_pending_length (ctx : SyncCtx) (user : Nat)
    (l : List LocalFolderRow) (st : ReconcileState) :
    (reconcilePass ctx user l st).pending.length ≤ l.length ∧
      ((reconcilePass ctx user l st).progressed = true →
        (reconcilePass ctx user l st).pending.length < l.length) := by
  induction l generalizing st with
  | nil => simp [reconcilePass]
  | cons row rest ih =>
    by_cases h : (strTruthy row.parentId && !mappingHasKey st.mapping row.parentId) = true
    · have h1 := ih st
      simp only [reconcilePass, h, if_pos]
      constructor
      · simpa using Nat.succ_le_succ h1.1
      · intro hp
        simp only [List.length_cons]
        exact Nat.succ_lt_succ (h1.2 hp)
    · have h1 := ih (materializeRow ctx user st row)
      simp only [reconcilePass, h, if_neg, if_false, Bool.false_eq_true]
      constructor
      · exact Nat.le_succ_of_le h1.1
      · intro _
        exact Nat.lt_succ_of_le h1.1

/-- Iteration worker of the `while pending:` loop, structurally recursive on
an iteration bound.  A progressing sweep strictly shrinks `pending`
(`reconcilePass_pending_length`), so with `fuel = pending.length` the
`fuel = 0` case is reached only with `pending = []`, where the source loop
also exits — the wrapper `reconcileLoop` is therefore exactly the source
loop, made structural so that it evaluates. -/
def reconcileLoopAux (ctx : SyncCtx) (user : Nat) :
    Nat → List LocalFolderRow → ReconcileState → ReconcileState
  | 0, _, st => st
  | fuel + 1, pending, st =>
    if pending = [] then st
    else
      let r := reconcilePass ctx user pending st
      if r.progressed then reconcileLoopAux ctx user fuel r.pending r.st
      else reconcileFallback ctx user r.pending r.st

/-- The fixed-point `while pending:` loop of `_ensure_server_folders_from_local`
(lines 417–469 of `app/api/routes.py`): repeat sweeps while progress is made;
on a no-progress sweep, force-attach everything remaining at the root and
stop.  Termination holds on every input because each sweep either strictly
shrinks `pending` or triggers the fallback. -/
def reconcileLoop (ctx : SyncCtx) (user : Nat)
    (pending : List LocalFolderRow) (st : ReconcileState) : ReconcileState :=
  reconcileLoopAux ctx user pending.length pending st

/-- The `ensure_path` closure of `_ensure_server_folders_from_local`: walk the
path segments, consulting the `(parent, name)` cache, looking up or creating
folders, and return the final parent id. -/
def ensurePathGo (ctx : SyncCtx) (user : Nat) :
    List String → Option Nat → Db → FolderCache → Option Nat × Db × FolderCache
  | [], parent, db, cache => (parent, db, cache)
  | part :: rest, parent, db, cache =>
    let name := pyStrip part
    if name = "" then ensurePathGo ctx user rest parent db cache
    else
      match cacheGet cache (parent, name) with
      | some fid => ensurePathGo ctx user rest (some fid) db cache
      | none =>
          let (folder, db2) := lookupOrCreateFolder ctx user db name parent
          ensurePathGo ctx user rest (some folder.id) db2
            (cacheSet cache (parent, name) folder.id)

/-- The bookmark sweep at the end of `_ensure_server_folders_from_local`:
ensure `folder_path` hierarchies for bookmarks whose local folder id is not
already mapped. -/
def reconcileBookmarkPass (ctx : SyncCtx) (user : Nat) :
    List LocalBookmarkRow → ReconcileState → ReconcileState
  | [], st => st
  | bm :: rest, st =>
    if strTruthy bm.folderLocalId && mappingHasKey st.mapping bm.folderLocalId then
      reconcileBookmarkPass ctx user rest st
    else if bm.folderPath ≠ [] then
      let r := ensurePathGo ctx user bm.folderPath none st.db st.cache
      let mapping :=
        if strTruthy bm.folderLocalId && natTruthy r.1 then
          assocSet st.mapping (bm.folderLocalId.getD "") (r.1.getD 0)
        else st.mapping
      reconcileBookmarkPass ctx user rest { db := r.2.1, mapping := mapping, cache := r.2.2 }
    else
      reconcileBookmarkPass ctx user rest st

/-- The function `_ensure_server_folders_from_local` of `app/api/routes.py`.
The source seeds `pending` with `{row["id"]: row for row in local_folders}`;
parsed rows have unique ids (`_parse_local_folders` drops duplicates), so the
ordered list models the dict. -/
def _ensure_server_folders_from_local (ctx : SyncCtx) (user : Nat) (db : Db)
    (localFolders : List LocalFolderRow) (localBookmarks : List LocalBookmarkRow) :
    List (String × Nat) × Db :=
  let st1 := reconcileLoop ctx user localFolders { db := db, mapping := [], cache := [] }
  let st2 := reconcileBookmarkPass ctx user localBookmarks st1
  (st2.mapping, st2.db)

/-- The helper `_active_server_bookmarks`: the user's non-deleted bookmarks,
ordered by `updated_at` descending (stable sort models the SQL order). -/
def _active_server_bookmarks (db : Db) (user : Nat) : List Bookmark :=
  (db.bookmarks.filter (fun b => b.userId == user && b.deletedAt.isNone)).insertionSort
    (fun a b => b.updatedAt ≤ a.updatedAt)

/-- The function `_create_server_bookmark_from_local` of `app/api/routes.py`.
With `populateContent` the source also fetches the page and writes a
`BookmarkContent` row plus `link_status`/`last_checked_at`; those columns are
elided, but the notes overwrite from the extracted text is kept
(`ctx.fetchExtractText` models the external fetch). -/
def _create_server_bookmark_from_local (ctx : SyncCtx) (user : Nat) (db : Db)
    (item : LocalBookmarkRow) (folderMap : List (String × Nat))
    (populateContent : Bool) : Option Bookmark × Db :=
  let url := pyStrip item.url
  let normalized := ctx.normalizeUrl url
  if normalized = "" then (none, db)
  else
    let folderId := if strTruthy item.folderLocalId then mappingGet folderMap item.folderLocalId else none
    let nb : Bookmark :=
      _apply_tags
        { id := db.nextBookmarkId, userId := user, folderId := folderId,
          url := url, normalizedUrl := normalized, title := item.title,
          notes := item.notes, tags := [], updatedAt := ctx.now,
          deletedAt := none, deletedBy := none }
        item.tags
    let nb :=
      if populateContent then
        match _normalize_notes_value (some (ctx.fetchExtractText nb.url)) with
        | some extractedNotes => { nb with notes := some extractedNotes }
        | none =>
            if _normalize_notes_value nb.notes = none then { nb with notes := none }
            else nb
      else nb
    let db := { db with bookmarks := db.bookmarks ++ [nb],
                        nextBookmarkId := db.nextBookmarkId + 1 }
    let db := log_sync_event db user "bookmark" (some nb.id) "create"
      (.bookmark (serialize_bookmark_for_sync nb))
    (some nb, db)

/-- Accumulator of the local-bookmark loop of `_two_way_merge_snapshot`. -/
structure TwoWayAcc where
  used : List Nat
  bookmarkMap : List (String × Nat)
  createdCount : Nat
  db : Db

/-- The local-bookmark loop of `_two_way_merge_snapshot`: for each local
bookmark take the first server bookmark with the same normalized URL not yet
used (the source's `by_normalized` dict groups in list order, so the direct
ordered search is the same choice); unmatched locals are created with
synchronous content population. -/
def twoWayPairLoop (ctx : SyncCtx) (user : Nat) (serverBookmarks : List Bookmark)
    (folderMap : List (String × Nat)) :
    List LocalBookmarkRow → TwoWayAcc → TwoWayAcc
  | [], acc => acc
  | item :: rest, acc =>
    match serverBookmarks.find? (fun b =>
        b.normalizedUrl == item.normalizedUrl && !acc.used.contains b.id) with
    | some m =>
        let bmap :=
          if strTruthy item.id then assocSet acc.bookmarkMap (item.id.getD "") m.id
          else acc.bookmarkMap
        twoWayPairLoop ctx user serverBookmarks folderMap rest
          { acc with used := acc.used ++ [m.id], bookmarkMap := bmap }
    | none =>
        match _create_server_bookmark_from_local ctx user acc.db item folderMap true with
        | (none, db) => twoWayPairLoop ctx user serverBookmarks folderMap rest { acc with db := db }
        | (some created, db) =>
            let bmap :=
              if strTruthy item.id then assocSet acc.bookmarkMap (item.id.getD "") created.id
              else acc.bookmarkMap
            twoWayPairLoop ctx user serverBookmarks folderMap rest
              { acc with createdCount := acc.createdCount + 1, bookmarkMap := bmap, db := db }

/-- The function `_two_way_merge_snapshot` of `app/api/routes.py`:
folder map from the reconciler, then the one-to-one pairing loop; returns
(folder map, bookmark map, (server_created, server_updated), store). -/
def _two_way_merge_snapshot (ctx : SyncCtx) (user : Nat) (db : Db)
    (localFolders : List LocalFolderRow) (localBookmarks : List LocalBookmarkRow) :
    List (String × Nat) × List (String × Nat) × (Nat × Nat) × Db :=
  let (folderMap, db) := _ensure_server_folders_from_local ctx user db localFolders localBookmarks
  let serverBookmarks := _active_server_bookmarks db user
  let acc := twoWayPairLoop ctx user serverBookmarks folderMap localBookmarks
    { used := [], bookmarkMap := [], createdCount := 0, db := db }
  (folderMap, acc.bookmarkMap, (acc.createdCount, 0), acc.db)

/-- Result of `_estimate_two_way_merge_counts`. -/
structure MergeCounts where
  localAddToServer : Nat
  serverAddToLocal : Nat
  matched : Nat
deriving Repr, DecidableEq

/-- The function `_estimate_two_way_merge_counts` of `app/api/routes.py`:
per-URL multiset overlap (`eraseDups` models the key set; the fold order does
not affect the sums). -/
def _estimate_two_way_merge_counts (localBookmarks : List LocalBookmarkRow)
    (serverBookmarks : List Bookmark) : MergeCounts :=
  let localKeys := localBookmarks.map (fun i => i.normalizedUrl)
  let serverKeys := (serverBookmarks.map (fun b => b.normalizedUrl)).filter (fun k => k ≠ "")
  let keys := (localKeys ++ serverKeys).eraseDups
  keys.foldl
    (fun acc k =>
      let lc := localKeys.count k
      let sc := serverKeys.count k
      let overlap := min lc sc
      { localAddToServer := acc.localAddToServer + (lc - overlap),
        serverAddToLocal := acc.serverAddToLocal + (sc - overlap),
        matched := acc.matched + overlap })
    { localAddToServer := 0, serverAddToLocal := 0, matched := 0 }

/-- The helper `_preflight_warning` of `app/api/routes.py`. -/
def _preflight_warning (mode : String) : String :=
  if mode = SYNC_MODE_REPLACE_LOCAL then
    "This operation can replace your entire browser bookmark tree with LinkLoom server bookmarks."
  else if mode = SYNC_MODE_REPLACE_SERVER then
    "This operation can replace all LinkLoom server bookmarks with your current browser bookmark tree."
  else
    "This operation merges missing bookmarks in both directions without mass deletion."

/-- The impact breakdown dict of the preflight payload (`matched` appears
only in the two-way branch). -/
structure Impact where
  localDeletions : Nat
  localAdditions : Nat
  serverDeletions : Nat
  serverAdditions : Nat
  matched : Option Nat := none
deriving Repr, DecidableEq

/-- The preflight payload dict. -/
structure PreflightPayload where
  mode : String
  warning : String
  requiredPhrase : String
  localBookmarkCount : Nat
  serverBookmarkCount : Nat
  impact : Impact
  wouldNoop : Bool
  noOpReason : Option String
deriving Repr, DecidableEq

/-- The function `_build_sync_preflight_payload` of `app/api/routes.py`
(lines 283–331).  `required_phrase` uses `SYNC_CONFIRM_PHRASES[mode]`, which
raises off-key; callers only pass normalized modes, and the embedding uses
the `CONFIRM_PHRASE` alias as an unreachable default. -/
def _build_sync_preflight_payload (mode : String)
    (localBookmarks : List LocalBookmarkRow) (db : Db) (user : Nat) : PreflightPayload :=
  let serverBookmarks := _active_server_bookmarks db user
  let localCount := localBookmarks.length
  let serverCount := serverBookmarks.length
  let (wouldNoop, noOpReason, impact) :=
    if mode = SYNC_MODE_REPLACE_LOCAL then
      let wouldNoop := serverCount == 0
      (wouldNoop,
       if wouldNoop then some "server_empty" else none,
       ({ localDeletions := if wouldNoop then 0 else localCount,
          localAdditions := if wouldNoop then 0 else serverCount,
          serverDeletions := 0, serverAdditions := 0 } : Impact))
    else if mode = SYNC_MODE_REPLACE_SERVER then
      let wouldNoop := localCount == 0
      (wouldNoop,
       if wouldNoop then some "local_empty" else none,
       ({ localDeletions := 0, localAdditions := 0,
          serverDeletions := if wouldNoop then 0 else serverCount,
          serverAdditions := if wouldNoop then 0 else localCount } : Impact))
    else
      let mergeCounts := _estimate_two_way_merge_counts localBookmarks serverBookmarks
      (false, none,
       ({ localDeletions := 0, localAdditions := mergeCounts.serverAddToLocal,
          serverDeletions := 0, serverAdditions := mergeCounts.localAddToServer,
          matched := some mergeCounts.matched } : Impact))
  { mode := mode,
    warning := _preflight_warning mode,
    requiredPhrase := (SYNC_CONFIRM_PHRASES mode).getD CONFIRM_PHRASE,
    localBookmarkCount := localCount,
    serverBookmarkCount := serverCount,
    impact := impact,
    wouldNoop := wouldNoop,
    noOpReason := noOpReason }

/-- Ordering relation of the pull query (`ORDER BY id ASC`). -/
def eventIdLe (a b : SyncEvent) : Prop := a.id ≤ b.id

instance : DecidableRel eventIdLe := fun a b => Nat.decLe a.id b.id

instance : IsTotal SyncEvent eventIdLe := ⟨fun a b => Nat.le_total a.id b.id⟩

instance : IsTrans SyncEvent eventIdLe := ⟨fun _ _ _ h1 h2 => Nat.le_trans h1 h2⟩

/-- Response of `sync_pull`.  The source maps each row to a dict
`{cursor, entity_type, entity_id, action, payload, created_at}`; that
projection is a per-row field renaming, so the embedding returns the rows. -/
structure PullResponse where
  events : List SyncEvent
  cursor : Nat
  hasMore : Bool
deriving Repr, DecidableEq

/-- The endpoint `sync_pull` of `app/api/routes.py` (lines 1468–1500):
events with `id > since` for the user, ascending by id, truncated at `limit`;
cursor is the last returned id (or `since`); `has_more` compares the page
length with `limit`. -/
def sync_pull (db : Db) (user : Nat) (since limit : Nat) : PullResponse :=
  let returned := ((db.events.filter (fun e => e.userId == user && since < e.id)).insertionSort
    eventIdLe).take limit
  { events := returned,
    cursor := match returned.getLast? with
      | some e => e.id
      | none => since,
    hasMore := returned.length == limit }

/-- Payload of a confirmation token (`create_confirmation_token`). -/
structure TokenPayload where
  userId : Nat
  clientId : String
  mode : String
  localCount : Nat
  serverCount : Nat
  issuedAt : Int
  ttl : Nat
deriving Repr, DecidableEq

/-- The function `verify_confirmation_token` of `app/services/sync.py`.
The `itsdangerous` serializer is external: `loads` models
`serializer.loads(token, max_age=…)`, with `none` standing for `BadData`
(bad signature or expired); the secret key and max-age live inside `loads`.
The user/client and mode checks are the source's own. -/
def verify_confirmation_token (loads : String → Option TokenPayload)
    (token : String) (expectedUserId : Nat) (expectedClientId : String)
    (expectedMode : Option String) : Option TokenPayload :=
  match loads token with
  | none => none
  | some payload =>
      if payload.userId ≠ expectedUserId ∨ payload.clientId ≠ expectedClientId then none
      else if strTruthy expectedMode ∧ some payload.mode ≠ expectedMode then none
      else some payload

/-- A scalar JSON value as `_to_bool` receives it. -/
inductive PyVal where
  | vnone
  | vbool (b : Bool)
  | vstr (s : String)
deriving Repr, DecidableEq

/-- The helper `_to_bool` of `app/api/routes.py` (non-string non-bool inputs
go through `str(...)`; request JSON only yields these shapes). -/
def _to_bool (value : PyVal) (default : Bool) : Bool :=
  match value with
  | .vnone => default
  | .vbool b => b
  | .vstr s => ["1", "true", "yes", "on"].contains (pyLower (pyStrip s))

/-- The helper `_normalize_sync_mode` of `app/api/routes.py`. -/
def _normalize_sync_mode (rawMode : Option String) : String :=
  let mode0 := pyLower (pyStrip (rawMode.getD ""))
  let mode := if mode0 = "" then SYNC_MODE_REPLACE_LOCAL else mode0
  if SYNC_FIRST_MODES.contains mode then mode else ""

/-- The request fields read by the confirmation gates of `sync_first_apply`
(the local bookmark/folder lists are parsed before the gates but only read
after them, so they are irrelevant to gating). -/
structure SyncApplyRequest where
  clientId : Option String := none
  mode : Option String := none
  confirmationToken : Option String := none
  typedPhrase : Option String := none
  confirmChecked : PyVal := .vnone
deriving Repr, DecidableEq

/-- Outcome of the gate section of `sync_first_apply`. -/
inductive GateOutcome where
  | rejected (httpStatus : Nat) (error : String)
  | proceed (tokenPayload : TokenPayload)
deriving Repr, DecidableEq

/-- The gate section of the endpoint `sync_first_apply`
(`app/api/routes.py` lines 1299–1335): required-field check, then the typed
phrase and checkbox, then the signed token.  The store is returned untouched
on every path — the source performs its first write (`ensure_sync_client`)
only after all gates pass, so a rejection has no side effects. -/
def sync_first_apply_gates (loads : String → Option TokenPayload) (user : Nat)
    (req : SyncApplyRequest) (db : Db) : GateOutcome × Db :=
  let clientId := pyStrip (req.clientId.getD "")
  let mode := _normalize_sync_mode req.mode
  let typedPhrase := pyStrip (req.typedPhrase.getD "")
  let confirmChecked := _to_bool req.confirmChecked false
  if clientId = "" ∨ ¬ strTruthy req.confirmationToken ∨ mode = "" then
    (.rejected 400 "client_id, mode, and confirmation_token are required", db)
  else
    let requiredPhrase := (SYNC_CONFIRM_PHRASES mode).getD CONFIRM_PHRASE
    if typedPhrase ≠ requiredPhrase ∨ confirmChecked = false then
      (.rejected 400 "destructive confirmation failed", db)
    else
      match verify_confirmation_token loads (req.confirmationToken.getD "")
          user clientId (some mode) with
      | none => (.rejected 400 "invalid or expired confirmation token", db)
      | some payload => (.proceed payload, db)

/-- A `dead_link_jobs` row (counters not read by the stop path are elided). -/
structure DeadLinkJob where
  id : Nat
  userId : Nat
  status : String
  progress : Nat := 0
  errorMessage : Option String := none
deriving Repr, DecidableEq

/-- Process-wide job state of `app/services/dead_link_jobs.py`: the persisted
job rows, the `_STOP_REQUESTED` set and the `_RUNTIME_STATE` map (a dict of
string fields per job id; the lock serialises access and is invisible to the
sequential model). -/
structure JobRegistry where
  jobs : List DeadLinkJob
  stopRequested : List Nat
  runtimeState : List (Nat × List (String × String))
deriving Repr, DecidableEq

/-- String-keyed dict assignment used by `_runtime_update`. -/
def runtimeFieldSet (d : List (String × String)) (k v : String) : List (String × String) :=
  if (d.find? (fun kv => kv.1 == k)).isSome then
    d.map (fun kv => if kv.1 == k then (k, v) else kv)
  else d ++ [(k, v)]

/-- The helper `_runtime_update`: merge the updates into the job's runtime
dict (copy-update-store under the lock). -/
def _runtime_update (rs : List (Nat × List (String × String))) (jobId : Nat)
    (updates : List (String × String)) : List (Nat × List (String × String)) :=
  let cur := ((rs.find? (fun kv => kv.1 == jobId)).map (fun kv => kv.2)).getD []
  let merged := updates.foldl (fun acc kv => runtimeFieldSet acc kv.1 kv.2) cur
  if (rs.find? (fun kv => kv.1 == jobId)).isSome then
    rs.map (fun kv => if kv.1 == jobId then (jobId, merged) else kv)
  else rs ++ [(jobId, merged)]

/-- The function `request_dead_link_job_stop` of
`app/services/dead_link_jobs.py` (lines 79–90): refuse when the job is
missing or not in `pending|running`; otherwise record the stop request and a
runtime status message. -/
def request_dead_link_job_stop (reg : JobRegistry) (jobId userId : Nat) :
    Bool × JobRegistry :=
  match reg.jobs.find? (fun j => j.id == jobId && j.userId == userId) with
  | none => (false, reg)
  | some job =>
      if ¬ (job.status = "pending" ∨ job.status = "running") then (false, reg)
      else
        let stopRequested :=
          if reg.stopRequested.contains jobId then reg.stopRequested
          else reg.stopRequested ++ [jobId]
        let runtimeState := _runtime_update reg.runtimeState jobId
          [("status_message", "Stop requested. Finishing active checks...")]
        (true, { reg with stopRequested := stopRequested, runtimeState := runtimeState })

/-- Folder-store well-formedness: every folder id and every parent reference
is below the id generator's next value. -/
def FolderIdsBounded (db : Db) : Prop :=
  ∀ f ∈ db.folders, f.id < db.nextFolderId ∧ ∀ p, f.parentId = some p → p < db.nextFolderId

/-- The acyclicity invariant: no folder is its own (strict) ancestor. -/
def StoreAcyclic (db : Db) : Prop := ∀ a, ¬ IsAncestor db.folders a a

def GoodFolderStore (db : Db) : Prop := FolderIdsBounded db ∧ StoreAcyclic db

/-- All mapped server folder ids are below the id generator. -/
def MappingBounded (m : List (String × Nat)) (n : Nat) : Prop := ∀ kv ∈ m, kv.2 < n

/-- All cached server folder ids are below the id generator. -/
def CacheBounded (c : FolderCache) (n : Nat) : Prop := ∀ kv ∈ c, kv.2 < n

/-- Invariant carried through the reconciler: the store is well-formed and
acyclic, and mapping/cache only hold existing folder ids. -/
def ReconcileInv (st : ReconcileState) : Prop :=
  GoodFolderStore st.db ∧ MappingBounded st.mapping st.db.nextFolderId ∧
    CacheBounded st.cache st.db.nextFolderId

/-!
Concrete instances used by counterexamples and witnesses.  The context
functions instantiate the external primitives: URLs below are written in
already-normalized form, so the identity is a legitimate `normalize_url`
instantiation; each `parseTime` is a constant `isoparse` result.
-/

/-- Context whose `parseTime` yields the instant 100 for every string. -/
def ctxEq : SyncCtx :=
  { normalizeUrl := fun s => s, parseTime := fun _ => some 100, now := 50 }

/-- Context whose `parseTime` yields the instant 101 for every string. -/
def ctxGt : SyncCtx :=
  { normalizeUrl := fun s => s, parseTime := fun _ => some 101, now := 50 }

/-- Context whose `parseTime` always fails (unparseable timestamps). -/
def ctxNone : SyncCtx :=
  { normalizeUrl := fun s => s, parseTime := fun _ => none, now := 50 }

/-- A server bookmark whose `updated_at` is the instant 100. -/
def bmark1 : Bookmark :=
  { id := 1, userId := 7, folderId := none, url := "https://a.example/",
    normalizedUrl := "https://a.example/", title := none, notes := none, tags := [],
    updatedAt := 100, deletedAt := none, deletedBy := none }

/-- A store holding only `bmark1` for user 7. -/
def db1 : Db :=
  { bookmarks := [bmark1], folders := [], events := [],
    nextBookmarkId := 2, nextFolderId := 1, nextEventId := 1 }

/-- A push update for bookmark 1 carrying a client timestamp string. -/
def opUpdate1 : PushOp :=
  { op := some "update", bookmark := some { id := some 1, updatedAt := some "t" } }

/-- A push delete for bookmark 1 carrying no timestamp at all. -/
def opDeleteNoTs : PushOp :=
  { op := some "delete", bookmark := some { id := some 1 } }

/-- Two sibling root folders of user 7. -/
def folder1 : Folder := { id := 1, userId := 7, name := "A", parentId := none, updatedAt := 0 }

def folder2 : Folder := { id := 2, userId := 7, name := "B", parentId := none, updatedAt := 0 }

/-- A store holding the two root folders. -/
def dbF : Db :=
  { bookmarks := [], folders := [folder1, folder2], events := [],
    nextBookmarkId := 1, nextFolderId := 3, nextEventId := 1 }

/-- Push update moving folder 1 under folder 2. -/
def opMove1 : PushOp :=
  { op := some "update", entityType := some "folder",
    folder := some { id := some 1, parentId := some (some 2), updatedAt := some "t" } }

/-- Push update moving folder 2 under folder 1. -/
def opMove2 : PushOp :=
  { op := some "update", entityType := some "folder",
    folder := some { id := some 2, parentId := some (some 1), updatedAt := some "t" } }

/-- Push update moving folder 1 under folder 2 with no client timestamp. -/
def opMoveNoTs : PushOp :=
  { op := some "update", entityType := some "folder",
    folder := some { id := some 1, parentId := some (some 2) } }

/-- The store after both push moves: folders 1 and 2 parent each other. -/
def dbMoved : Db :=
  (apply_push_operation ctxEq 7 (apply_push_operation ctxEq 7 dbF opMove1).2 opMove2).2

/-- Folder 1 after the two push moves. -/
def folder1Moved : Folder :=
  { id := 1, userId := 7, name := "A", parentId := some 2, updatedAt := 50 }

/-- Folder 2 after the two push moves. -/
def folder2Moved : Folder :=
  { id := 2, userId := 7, name := "B", parentId := some 1, updatedAt := 50 }

/-- A store holding only root folder 1, for the PATCH self-parent input. -/
def dbP : Db :=
  { bookmarks := [], folders := [folder1], events := [],
    nextBookmarkId := 1, nextFolderId := 2, nextEventId := 1 }

/-- Folder 1 after `PATCH {parent_id: 1}`: its own parent. -/
def folder1SelfParent : Folder :=
  { id := 1, userId := 7, name := "A", parentId := some 1, updatedAt := 50 }

/-- A registry with one finished dead-link job. -/
def jobDone : DeadLinkJob := { id := 3, userId := 7, status := "done", progress := 100 }

def regDone : JobRegistry :=
  { jobs := [jobDone], stopRequested := [], runtimeState := [] }

/-- The create event of `bmark1`, id 1. -/
def ev1 : SyncEvent :=
  { id := 1, userId := 7, entityType := "bookmark", entityId := some 1,
    action := "create", payload := .bookmark (serialize_bookmark_for_sync bmark1) }

/-- An update event of `bmark1`, id 2. -/
def ev2 : SyncEvent :=
  { id := 2, userId := 7, entityType := "bookmark", entityId := some 1,
    action := "update", payload := .bookmark (serialize_bookmark_for_sync bmark1) }

/-- A store whose event log holds exactly `ev1` and `ev2`. -/
def dbEv : Db :=
  { bookmarks := [bmark1], folders := [], events := [ev1, ev2],
    nextBookmarkId := 2, nextFolderId := 1, nextEventId := 3 }

/-- A push create for the URL of `bmark1`. -/
def opCreateA : PushOp :=
  { op := some "create", bookmark := some { url := some "https://a.example/" } }

/-- A soft-deleted bookmark with the same normalized URL as `bmark1`. -/
def bmarkDeleted : Bookmark :=
  { id := 4, userId := 7, folderId := none, url := "https://a.example/",
    normalizedUrl := "https://a.example/", title := none, notes := none, tags := [],
    updatedAt := 20, deletedAt := some 30, deletedBy := some 7 }

/-- A store holding only the soft-deleted `bmarkDeleted`. -/
def dbDel : Db :=
  { bookmarks := [bmarkDeleted], folders := [], events := [],
    nextBookmarkId := 5, nextFolderId := 1, nextEventId := 1 }

/-- An active server bookmark with normalized URL A (key `10`). -/
def serverA : Bookmark :=
  { id := 10, userId := 7, folderId := none, url := "https://a.example/",
    normalizedUrl := "https://a.example/", title := none, notes := none, tags := [],
    updatedAt := 0, deletedAt := none, deletedBy := none }

/-- The server store of the two-way-merge instance: one bookmark, key A. -/
def dbC5 : Db :=
  { bookmarks := [serverA], folders := [], events := [],
    nextBookmarkId := 11, nextFolderId := 1, nextEventId := 1 }

/-- First local bookmark normalizing to A. -/
def localA1 : LocalBookmarkRow :=
  { id := some "l1", url := "https://a.example/", normalizedUrl := "https://a.example/" }

/-- Second local bookmark normalizing to A. -/
def localA2 : LocalBookmarkRow :=
  { id := some "l2", url := "https://a.example/", normalizedUrl := "https://a.example/" }

/-- A local bookmark normalizing to B. -/
def localB : LocalBookmarkRow :=
  { id := some "l3", url := "https://b.example/", normalizedUrl := "https://b.example/" }

/-- The local multiset `{A, A, B}` of the claim. -/
def localsC5 : List LocalBookmarkRow := [localA1, localA2, localB]

/-- The claim's cyclic edge list: folder 1 parents to 2 and 2 parents to 1
(string ids, as `_parse_local_folders` produces). -/
def rowsCycle : List LocalFolderRow :=
  [{ id := "1", parentId := some "2", title := "F1" },
   { id := "2", parentId := some "1", title := "F2" }]

/-- An empty store with fresh id generators. -/
def dbEmpty : Db :=
  { bookmarks := [], folders := [], events := [],
    nextBookmarkId := 1, nextFolderId := 1, nextEventId := 1 }

/-- A valid confirmation-token payload for user 7 / client `c1` /
replace-local mode. -/
def tokC8 : TokenPayload :=
  { userId := 7, clientId := "c1", mode := "replace_local_with_server",
    localCount := 1, serverCount := 1, issuedAt := 0, ttl := 900 }

/-- A `serializer.loads` instantiation accepting exactly the token string
`tok` (any other string is `BadData`: forged or expired). -/
def loadsC8 : String → Option TokenPayload := fun t => if t = "tok" then some tokC8 else none

/-- An apply request failing only the typed-phrase gate. -/
def reqWrongPhrase : SyncApplyRequest :=
  { clientId := some "c1", mode := some "replace_local_with_server",
    confirmationToken := some "tok", typedPhrase := some "WRONG",
    confirmChecked := .vbool true }

/-- An apply request failing only the token gate. -/
def reqBadToken : SyncApplyRequest :=
  { clientId := some "c1", mode := some "replace_local_with_server",
    confirmationToken := some "bad", typedPhrase := some "DELETE ALL LOCAL BOOKMARKS",
    confirmChecked := .vbool true }

/-!
Claim theorems.
-/

/-- C1 (amended): last-write-wins boundary for push updates/deletes/restores
on an existing bookmark with a parseable client timestamp `c` against the
server-side `updated_at` `T`: if `c ≤ T` the operation returns
`skipped/server_newer_or_equal` and the store is unchanged; only if `c > T`
is the operation applied. -/
theorem C1_last_write_wins_boundary (ctx : SyncCtx) (user : Nat) (db : Db)
    (op : PushOp) (b : Bookmark) (c : Int)
    (ha : pyLower (op.op.getD "") = "update" ∨ pyLower (op.op.getD "") = "delete" ∨
      pyLower (op.op.getD "") = "restore")
    (hb : _push_bookmark_lookup user db op = some b)
    (hc : _push_bookmark_client_time ctx op = some c) :
    (c ≤ b.updatedAt →
      _apply_bookmark_push_operation ctx user db op =
        ({ status := "skipped", reason := some "server_newer_or_equal" }, db)) ∧
    (b.updatedAt < c →
      (_apply_bookmark_push_operation ctx user db op).1.status =
        (if pyLower (op.op.getD "") = "update" then "updated"
         else if pyLower (op.op.getD "") = "delete" then "deleted" else "restored")) := by
  have hnc : ¬ (pyLower (op.op.getD "") = "create") := by
    rcases ha with h | h | h <;> rw [h] <;> decide
  constructor
  · intro hle
    have hcmp : _server_time_is_newer_or_equal (some b.updatedAt)
        (_push_bookmark_client_time ctx op) = true := by
      rw [hc]; simpa [_server_time_is_newer_or_equal] using hle
    simp [_apply_bookmark_push_operation, hnc, hb, hcmp]
  · intro hlt
    have hcmp : _server_time_is_newer_or_equal (some b.updatedAt)
        (_push_bookmark_client_time ctx op) = false := by
      rw [hc]; simp [_server_time_is_newer_or_equal]; exact hlt
    simp only [_apply_bookmark_push_operation, hnc, if_false, hb, hcmp]
    rcases ha with h | h | h <;> simp [_apply_bookmark_push_mutation, h]

/-- C1 witness: at the boundary instant 100 the update on `bmark1`
(`updated_at = 100`) is skipped with the store unchanged, and with client
instant 101 it is applied. -/
theorem C1_last_write_wins_boundary_witness :
    ((100 : Int) ≤ bmark1.updatedAt ∧
      _apply_bookmark_push_operation ctxEq 7 db1 opUpdate1 =
        ({ status := "skipped", reason := some "server_newer_or_equal" }, db1)) ∧
    (bmark1.updatedAt < 101 ∧
      (_apply_bookmark_push_operation ctxGt 7 db1 opUpdate1).1.status = "updated") :=
  ⟨⟨by decide,
    (C1_last_write_wins_boundary ctxEq 7 db1 opUpdate1 bmark1 100
      (Or.inl rfl) rfl rfl).1 (by decide)⟩,
   ⟨by decide,
    ((C1_last_write_wins_boundary ctxGt 7 db1 opUpdate1 bmark1 101
      (Or.inl rfl) rfl rfl).2 (by decide)).trans rfl⟩⟩

/-- C1 counterexample to the claim as stated: the claim says a client
timestamp `≥ T` is applied, but at exact equality (client instant 100 against
`updated_at = 100`) the code skips with `server_newer_or_equal` and leaves
the entity unchanged, because `_server_time_is_newer_or_equal` uses `≥`. -/
theorem C1_equal_timestamp_is_skipped :
    _push_bookmark_client_time ctxEq opUpdate1 = some 100 ∧
    bmark1.updatedAt = 100 ∧
    _apply_bookmark_push_operation ctxEq 7 db1 opUpdate1 =
      ({ status := "skipped", reason := some "server_newer_or_equal" }, db1) :=
  ⟨rfl, rfl, by decide⟩

/-- C2: the code violates the acyclicity invariant.  `PATCH /folders/1` with
`parent_id = 1` makes folder 1 its own parent (hence its own ancestor), and
the two push folder updates `1 → 2` then `2 → 1` (each carrying a fresh
client timestamp) are both applied and leave folders 1 and 2 ancestors of
themselves. -/
theorem C2_folder_parent_cycle_bug :
    (folders_update ctxEq 7 dbP 1 { parentId := some (some 1) }).map
        (fun r => r.2.folders) = some [folder1SelfParent] ∧
    IsAncestor [folder1SelfParent] 1 1 ∧
    (apply_push_operation ctxEq 7 dbF opMove1).1.status = "updated" ∧
    (apply_push_operation ctxEq 7 (apply_push_operation ctxEq 7 dbF opMove1).2 opMove2).1.status
      = "updated" ∧
    dbMoved.folders = [folder1Moved, folder2Moved] ∧
    IsAncestor dbMoved.folders 1 1 ∧
    IsAncestor dbMoved.folders 2 2 := by
  have hp : dbMoved.folders = [folder1Moved, folder2Moved] := by decide
  refine ⟨by decide, ?_, by decide, by decide, hp, ?_, ?_⟩
  · exact IsAncestor.parent (f := folder1SelfParent) (List.mem_singleton_self _) rfl
  · rw [hp]
    exact IsAncestor.step (f := folder1Moved) (List.mem_cons_self _ _) rfl
      (IsAncestor.parent (f := folder2Moved) (by simp) rfl)
  · rw [hp]
    exact IsAncestor.step (f := folder2Moved) (by simp) rfl
      (IsAncestor.parent (f := folder1Moved) (List.mem_cons_self _ _) rfl)

/-- C6: the replace-local preflight declares a no-op with reason
`server_empty` exactly when the user has no active (non-deleted) server
bookmarks, whatever the local list is. -/
theorem C6_replace_local_preflight_server_empty (db : Db) (user : Nat)
    (locals : List LocalBookmarkRow) :
    ((_build_sync_preflight_payload SYNC_MODE_REPLACE_LOCAL locals db user).wouldNoop = true ∧
      (_build_sync_preflight_payload SYNC_MODE_REPLACE_LOCAL locals db user).noOpReason =
        some "server_empty") ↔
      (db.bookmarks.filter (fun b => b.userId == user && b.deletedAt.isNone)).length = 0 := by
  by_cases h : (db.bookmarks.filter (fun b => b.userId == user && b.deletedAt.isNone)).length = 0 <;>
    simp [_build_sync_preflight_payload, _active_server_bookmarks, List.length_insertionSort, h]

/-- C9: requesting stop on a dead-link job already in a terminal state
(`done`, `failed` or `stopped`) reports `False` and leaves the whole job
registry — job rows, stop-requested set and runtime map — unchanged. -/
theorem C9_stop_terminal_job_noop (reg : JobRegistry) (jobId userId : Nat)
    (job : DeadLinkJob)
    (hfind : reg.jobs.find? (fun j => j.id == jobId && j.userId == userId) = some job)
    (hterm : job.status = "done" ∨ job.status = "failed" ∨ job.status = "stopped") :
    request_dead_link_job_stop reg jobId userId = (false, reg) := by
  unfold request_dead_link_job_stop
  rw [hfind]
  rcases hterm with h | h | h <;> simp [h]

/-- C9 witness: stopping the finished job 3 of user 7 returns `False` with
the registry untouched. -/
theorem C9_stop_terminal_job_noop_witness :
    regDone.jobs.find? (fun j => j.id == 3 && j.userId == 7) = some jobDone ∧
    jobDone.status = "done" ∧
    request_dead_link_job_stop regDone 3 7 = (false, regDone) :=
  ⟨rfl, rfl, C9_stop_terminal_job_noop regDone 3 7 jobDone rfl (Or.inl rfl)⟩

/-- C10: a missing or unparseable client timestamp disables the
last-write-wins rejection: `_parse_client_time` yields `None` then
(`_server_time_is_newer_or_equal` treats `None` as not-newer), so a push
update/delete/restore on an existing bookmark is applied, and a folder
operation never returns `server_newer_or_equal`, regardless of the server
`updated_at`. -/
theorem C10_missing_timestamp_never_rejected (ctx : SyncCtx) (user : Nat)
    (db : Db) (op : PushOp) :
    (∀ t : Option Int, _server_time_is_newer_or_equal t none = false) ∧
    (∀ s, ctx.parseTime s = none → _parse_client_time ctx.parseTime (some s) = none) ∧
    (∀ b : Bookmark, _push_bookmark_lookup user db op = some b →
      _push_bookmark_client_time ctx op = none →
      (pyLower (op.op.getD "") = "update" ∨ pyLower (op.op.getD "") = "delete" ∨
        pyLower (op.op.getD "") = "restore") →
      (_apply_bookmark_push_operation ctx user db op).1.status =
        (if pyLower (op.op.getD "") = "update" then "updated"
         else if pyLower (op.op.getD "") = "delete" then "deleted" else "restored")) ∧
    (∀ f : Folder, _push_folder_lookup user db op = some f →
      _push_folder_client_time ctx op = none →
      (_apply_folder_push_operation ctx user db op).1.reason ≠ some "server_newer_or_equal") := by
  refine ⟨fun t => by cases t <;> rfl, fun s hs => by simp [_parse_client_time, hs], ?_, ?_⟩
  · intro b hb hc ha
    have hnc : ¬ (pyLower (op.op.getD "") = "create") := by
      rcases ha with h | h | h <;> rw [h] <;> decide
    have hcmp : _server_time_is_newer_or_equal (some b.updatedAt)
        (_push_bookmark_client_time ctx op) = false := by
      rw [hc]; rfl
    simp only [_apply_bookmark_push_operation, hnc, if_false, hb, hcmp]
    rcases ha with h | h | h <;> simp [_apply_bookmark_push_mutation, h]
  · intro f hf hc
    by_cases hcr : pyLower (op.op.getD "") = "create"
    · have hres : (_apply_folder_push_create ctx user db op).1.reason = none := by
        simp only [_apply_folder_push_create]
        split <;> rfl
      simp only [_apply_folder_push_operation, hcr, if_true, hres]
      simp
    · have hcmp : _server_time_is_newer_or_equal (some f.updatedAt)
          (_push_folder_client_time ctx op) = false := by
        rw [hc]; rfl
      simp only [_apply_folder_push_operation, hcr, if_false, hf, hcmp]
      unfold _apply_folder_push_mutation
      by_cases h1 : (pyLower (op.op.getD "") = "update" ∨ pyLower (op.op.getD "") = "move")
      · by_cases h2 : (folderPatchFromPush user db f (op.folder.getD {})).2 = true <;>
          simp [h1, h2]
      · by_cases h2 : pyLower (op.op.getD "") = "delete" <;> simp [h1, h2]

/-- C10 witness: a push delete with no timestamp on `bmark1` (server
`updated_at = 100`) is applied, and a timestamp-free folder move is not
rejected with `server_newer_or_equal`. -/
theorem C10_missing_timestamp_never_rejected_witness :
    (_push_bookmark_lookup 7 db1 opDeleteNoTs = some bmark1 ∧
      _push_bookmark_client_time ctxNone opDeleteNoTs = none ∧
      (_apply_bookmark_push_operation ctxNone 7 db1 opDeleteNoTs).1.status = "deleted") ∧
    (_push_folder_lookup 7 dbF opMoveNoTs = some folder1 ∧
      _push_folder_client_time ctxNone opMoveNoTs = none ∧
      (_apply_folder_push_operation ctxNone 7 dbF opMoveNoTs).1.reason ≠
        some "server_newer_or_equal") :=
  ⟨⟨rfl, rfl,
    ((C10_missing_timestamp_never_rejected ctxNone 7 db1 opDeleteNoTs).2.2.1 bmark1 rfl rfl
      (Or.inr (Or.inl rfl))).trans rfl⟩,
   ⟨rfl, rfl,
    (C10_missing_timestamp_never_rejected ctxNone 7 dbF opMoveNoTs).2.2.2 folder1 rfl rfl⟩⟩

theorem firstByUpdatedAtDescGo_mem (l : List Bookmark) :
    ∀ cur : Bookmark, firstByUpdatedAtDescGo cur l = cur ∨ firstByUpdatedAtDescGo cur l ∈ l := by
  induction l with
  | nil => intro cur; exact Or.inl rfl
  | cons b rest ih =>
    intro cur
    by_cases h : b.updatedAt > cur.updatedAt
    · rcases ih (if b.updatedAt > cur.updatedAt then b else cur) with h2 | h2 <;>
        simp only [firstByUpdatedAtDescGo]
      · rw [h2, if_pos h]
        exact Or.inr (List.mem_cons_self _ _)
      · exact Or.inr (List.mem_cons_of_mem _ h2)
    · rcases ih (if b.updatedAt > cur.updatedAt then b else cur) with h2 | h2 <;>
        simp only [firstByUpdatedAtDescGo]
      · rw [h2, if_neg h]
        exact Or.inl rfl
      · exact Or.inr (List.mem_cons_of_mem _ h2)

theorem firstByUpdatedAtDesc_eq_none_iff (l : List Bookmark) :
    firstByUpdatedAtDesc l = none ↔ l = [] := by
  cases l <;> simp [firstByUpdatedAtDesc]

theorem firstByUpdatedAtDesc_mem {l : List Bookmark} {b : Bookmark}
    (h : firstByUpdatedAtDesc l = some b) : b ∈ l := by
  cases l with
  | nil => simp [firstByUpdatedAtDesc] at h
  | cons c rest =>
    simp only [firstByUpdatedAtDesc, Option.some_inj] at h
    rcases firstByUpdatedAtDescGo_mem rest c with h2 | h2
    · rw [h] at h2
      exact h2 ▸ List.mem_cons_self _ _
    · rw [h] at h2
      exact List.mem_cons_of_mem _ h2

theorem restoreDeletedBookmark_fields (ctx : SyncCtx) (data : PushBookmarkData)
    (rawUrl n : String) (b : Bookmark) :
    (restoreDeletedBookmark ctx data rawUrl n b).id = b.id ∧
    (restoreDeletedBookmark ctx data rawUrl n b).userId = b.userId ∧
    (restoreDeletedBookmark ctx data rawUrl n b).deletedAt = none ∧
    (restoreDeletedBookmark ctx data rawUrl n b).normalizedUrl = n ∧
    (restoreDeletedBookmark ctx data rawUrl n b).url = rawUrl := by
  unfold restoreDeletedBookmark _apply_tags
  dsimp only
  repeat' split
  all_goals simp

def userUrlKeys (user : Nat) (l : List Bookmark) : List String :=
  (l.filter (fun b => b.userId == user)).map (fun b => b.normalizedUrl)

theorem userUrlKeys_map_eq (user : Nat) (f : Bookmark → Bookmark) (l : List Bookmark)
    (h : ∀ b ∈ l, (f b).userId = b.userId ∧ (f b).normalizedUrl = b.normalizedUrl) :
    userUrlKeys user (l.map f) = userUrlKeys user l := by
  induction l with
  | nil => rfl
  | cons b rest ih =>
    have hb := h b (List.mem_cons_self _ _)
    have ih2 := ih (fun x hx => h x (List.mem_cons_of_mem _ hx))
    simp only [userUrlKeys, List.map_cons, List.filter_cons] at ih2 ⊢
    rw [hb.1]
    by_cases hu : (b.userId == user) = true
    · simp [hu, hb.2, ih2]
    · simp [hu, ih2]

theorem userUrlKeys_append_single (user : Nat) (l : List Bookmark) (b : Bookmark) :
    userUrlKeys user (l ++ [b]) =
      userUrlKeys user l ++ (if b.userId == user then [b.normalizedUrl] else []) := by
  by_cases hu : (b.userId == user) = true <;>
    simp [userUrlKeys, List.filter_append, List.filter_cons, hu]

theorem pushCreate_exists_eq (ctx : SyncCtx) (user : Nat) (db : Db) (op : PushOp)
    (a : Bookmark)
    (hn : ctx.normalizeUrl (pushCreateRawUrl op) ≠ "")
    (hfa : db.bookmarks.find? (activeUrlMatch user (ctx.normalizeUrl (pushCreateRawUrl op)))
      = some a) :
    _apply_bookmark_push_create ctx user db op =
      ({ status := "exists", bookmarkId := some a.id }, db) := by
  simp only [_apply_bookmark_push_create]
  rw [if_neg hn, hfa]

theorem pushCreate_restored_eq (ctx : SyncCtx) (user : Nat) (db : Db) (op : PushOp)
    (d : Bookmark)
    (hn : ctx.normalizeUrl (pushCreateRawUrl op) ≠ "")
    (hfa : db.bookmarks.find? (activeUrlMatch user (ctx.normalizeUrl (pushCreateRawUrl op)))
      = none)
    (hfd : firstByUpdatedAtDesc (db.bookmarks.filter
        (deletedUrlMatch user (ctx.normalizeUrl (pushCreateRawUrl op)))) = some d) :
    _apply_bookmark_push_create ctx user db op =
      ({ status := "restored",
         bookmarkId := some (restoreDeletedBookmark ctx (op.bookmark.getD {})
           (pushCreateRawUrl op) (ctx.normalizeUrl (pushCreateRawUrl op)) d).id },
       log_sync_event
         (updateBookmarkRow db (restoreDeletedBookmark ctx (op.bookmark.getD {})
           (pushCreateRawUrl op) (ctx.normalizeUrl (pushCreateRawUrl op)) d))
         user "bookmark"
         (some (restoreDeletedBookmark ctx (op.bookmark.getD {})
           (pushCreateRawUrl op) (ctx.normalizeUrl (pushCreateRawUrl op)) d).id)
         "restore"
         (.bookmark (serialize_bookmark_for_sync
           (restoreDeletedBookmark ctx (op.bookmark.getD {})
             (pushCreateRawUrl op) (ctx.normalizeUrl (pushCreateRawUrl op)) d)))) := by
  simp only [_apply_bookmark_push_create]
  rw [if_neg hn, hfa, hfd]

theorem pushCreate_created_eq (ctx : SyncCtx) (user : Nat) (db : Db) (op : PushOp)
    (hn : ctx.normalizeUrl (pushCreateRawUrl op) ≠ "")
    (hfa : db.bookmarks.find? (activeUrlMatch user (ctx.normalizeUrl (pushCreateRawUrl op)))
      = none)
    (hfd : firstByUpdatedAtDesc (db.bookmarks.filter
        (deletedUrlMatch user (ctx.normalizeUrl (pushCreateRawUrl op)))) = none) :
    _apply_bookmark_push_create ctx user db op =
      ({ status := "created", bookmarkId := some (newBookmarkFromPush ctx user db op).id },
       log_sync_event
         { db with bookmarks := db.bookmarks ++ [newBookmarkFromPush ctx user db op],
                   nextBookmarkId := db.nextBookmarkId + 1 }
         user "bookmark" (some (newBookmarkFromPush ctx user db op).id) "create"
         (.bookmark (serialize_bookmark_for_sync (newBookmarkFromPush ctx user db op)))) := by
  simp only [_apply_bookmark_push_create]
  rw [if_neg hn, hfa, hfd]


/-- C3: push bookmark create deduplicates by normalized URL.  With a
non-empty normalized URL: an active match makes the operation a no-op with
status `exists`; otherwise a soft-deleted match is restored in place
(status `restored`, row count unchanged, the row un-deleted and overwritten
with the incoming URL); otherwise a fresh row is inserted (status
`created`); and a store without duplicate normalized URLs (per user) never
acquires one through a push create. -/
theorem C3_push_create_dedup (ctx : SyncCtx) (user : Nat) (db : Db) (op : PushOp)
    (ha : pyLower (op.op.getD "") = "create")
    (hn : ctx.normalizeUrl (pushCreateRawUrl op) ≠ "") :
    ((∃ b ∈ db.bookmarks,
        activeUrlMatch user (ctx.normalizeUrl (pushCreateRawUrl op)) b = true) →
      (_apply_bookmark_push_operation ctx user db op).1.status = "exists" ∧
      (_apply_bookmark_push_operation ctx user db op).2 = db) ∧
    ((¬ ∃ b ∈ db.bookmarks,
        activeUrlMatch user (ctx.normalizeUrl (pushCreateRawUrl op)) b = true) →
     (∃ b ∈ db.bookmarks,
        deletedUrlMatch user (ctx.normalizeUrl (pushCreateRawUrl op)) b = true) →
      (_apply_bookmark_push_operation ctx user db op).1.status = "restored" ∧
      (_apply_bookmark_push_operation ctx user db op).2.bookmarks.length =
        db.bookmarks.length ∧
      (∃ b ∈ (_apply_bookmark_push_operation ctx user db op).2.bookmarks,
        (_apply_bookmark_push_operation ctx user db op).1.bookmarkId = some b.id ∧
        b.deletedAt = none ∧
        b.normalizedUrl = ctx.normalizeUrl (pushCreateRawUrl op) ∧
        b.url = pushCreateRawUrl op)) ∧
    ((¬ ∃ b ∈ db.bookmarks,
        activeUrlMatch user (ctx.normalizeUrl (pushCreateRawUrl op)) b = true) →
     (¬ ∃ b ∈ db.bookmarks,
        deletedUrlMatch user (ctx.normalizeUrl (pushCreateRawUrl op)) b = true) →
      (_apply_bookmark_push_operation ctx user db op).1.status = "created" ∧
      (_apply_bookmark_push_operation ctx user db op).2.bookmarks.length =
        db.bookmarks.length + 1 ∧
      (∃ b ∈ (_apply_bookmark_push_operation ctx user db op).2.bookmarks,
        (_apply_bookmark_push_operation ctx user db op).1.bookmarkId = some b.id ∧
        b.deletedAt = none ∧ b.userId = user ∧
        b.normalizedUrl = ctx.normalizeUrl (pushCreateRawUrl op))) ∧
    ((db.bookmarks.map (fun b => b.id)).Nodup →
      (userUrlKeys user db.bookmarks).Nodup →
      (userUrlKeys user (_apply_bookmark_push_operation ctx user db op).2.bookmarks).Nodup) := by
  have hop : _apply_bookmark_push_operation ctx user db op =
      _apply_bookmark_push_create ctx user db op := by
    simp [_apply_bookmark_push_operation, ha]
  refine ⟨?_, ?_, ?_, ?_⟩
  · intro hex
    have hsome : (db.bookmarks.find? (activeUrlMatch user
        (ctx.normalizeUrl (pushCreateRawUrl op)))).isSome := List.find?_isSome.mpr hex
    obtain ⟨a, hfa⟩ := Option.isSome_iff_exists.mp hsome
    rw [hop, pushCreate_exists_eq ctx user db op a hn hfa]
    exact ⟨rfl, rfl⟩
  · intro hnex hdex
    have hfa : db.bookmarks.find? (activeUrlMatch user
        (ctx.normalizeUrl (pushCreateRawUrl op))) = none := by
      rw [List.find?_eq_none]
      intro x hx hpx
      exact hnex ⟨x, hx, hpx⟩
    obtain ⟨x, hx, hpx⟩ := hdex
    have hxf : x ∈ db.bookmarks.filter (deletedUrlMatch user
        (ctx.normalizeUrl (pushCreateRawUrl op))) := List.mem_filter.mpr ⟨hx, hpx⟩
    cases hfd : firstByUpdatedAtDesc (db.bookmarks.filter (deletedUrlMatch user
        (ctx.normalizeUrl (pushCreateRawUrl op)))) with
    | none =>
      exact absurd ((firstByUpdatedAtDesc_eq_none_iff _).mp hfd)
        (List.ne_nil_of_mem hxf)
    | some d =>
      have hdmem : d ∈ db.bookmarks :=
        List.mem_of_mem_filter (firstByUpdatedAtDesc_mem hfd)
      have hfields := restoreDeletedBookmark_fields ctx (op.bookmark.getD {})
        (pushCreateRawUrl op) (ctx.normalizeUrl (pushCreateRawUrl op)) d
      rw [hop, pushCreate_restored_eq ctx user db op d hn hfa hfd]
      refine ⟨rfl, ?_, ?_⟩
      · simp [log_sync_event, updateBookmarkRow]
      · refine ⟨restoreDeletedBookmark ctx (op.bookmark.getD {})
          (pushCreateRawUrl op) (ctx.normalizeUrl (pushCreateRawUrl op)) d, ?_, rfl,
          hfields.2.2.1, hfields.2.2.2.1, hfields.2.2.2.2⟩
        show _ ∈ (log_sync_event (updateBookmarkRow db _) user _ _ _ _).bookmarks
        simp only [log_sync_event, updateBookmarkRow]
        refine List.mem_map.mpr ⟨d, hdmem, ?_⟩
        have : (d.id == (restoreDeletedBookmark ctx (op.bookmark.getD {})
            (pushCreateRawUrl op) (ctx.normalizeUrl (pushCreateRawUrl op)) d).id) = true := by
          rw [hfields.1]
          exact beq_self_eq_true _
        rw [this]
        simp
  · intro hnex hdnex
    have hfa : db.bookmarks.find? (activeUrlMatch user
        (ctx.normalizeUrl (pushCreateRawUrl op))) = none := by
      rw [List.find?_eq_none]
      intro x hx hpx
      exact hnex ⟨x, hx, hpx⟩
    have hfilter : db.bookmarks.filter (deletedUrlMatch user
        (ctx.normalizeUrl (pushCreateRawUrl op))) = [] := by
      rw [List.filter_eq_nil_iff]
      intro x hx hpx
      exact hdnex ⟨x, hx, hpx⟩
    have hfd : firstByUpdatedAtDesc (db.bookmarks.filter (deletedUrlMatch user
        (ctx.normalizeUrl (pushCreateRawUrl op)))) = none := by
      rw [hfilter]
      rfl
    rw [hop, pushCreate_created_eq ctx user db op hn hfa hfd]
    refine ⟨rfl, ?_, ?_⟩
    · simp [log_sync_event]
    · refine ⟨newBookmarkFromPush ctx user db op, ?_, rfl, rfl, rfl, rfl⟩
      show _ ∈ (log_sync_event _ user _ _ _ _).bookmarks
      simp [log_sync_event]
  · intro hids hkeys
    cases hfa : db.bookmarks.find? (activeUrlMatch user
        (ctx.normalizeUrl (pushCreateRawUrl op))) with
    | some a =>
      rw [hop, pushCreate_exists_eq ctx user db op a hn hfa]
      exact hkeys
    | none =>
      cases hfd : firstByUpdatedAtDesc (db.bookmarks.filter (deletedUrlMatch user
          (ctx.normalizeUrl (pushCreateRawUrl op)))) with
      | some d =>
        have hdfil := firstByUpdatedAtDesc_mem hfd
        have hdmem : d ∈ db.bookmarks := List.mem_of_mem_filter hdfil
        have hdmatch : deletedUrlMatch user (ctx.normalizeUrl (pushCreateRawUrl op)) d
            = true := List.of_mem_filter hdfil
        have hdkey : d.normalizedUrl = ctx.normalizeUrl (pushCreateRawUrl op) := by
          simp only [deletedUrlMatch, Bool.and_eq_true, beq_iff_eq] at hdmatch
          exact hdmatch.1.2
        have hfields := restoreDeletedBookmark_fields ctx (op.bookmark.getD {})
          (pushCreateRawUrl op) (ctx.normalizeUrl (pushCreateRawUrl op)) d
        rw [hop, pushCreate_restored_eq ctx user db op d hn hfa hfd]
        show (userUrlKeys user (log_sync_event (updateBookmarkRow db _) user _ _ _ _).bookmarks).Nodup
        simp only [log_sync_event, updateBookmarkRow]
        rw [userUrlKeys_map_eq user _ db.bookmarks ?_]
        · exact hkeys
        · intro x hx
          by_cases hid : (x.id == (restoreDeletedBookmark ctx (op.bookmark.getD {})
              (pushCreateRawUrl op) (ctx.normalizeUrl (pushCreateRawUrl op)) d).id) = true
          · have hxd : x = d := by
              apply List.inj_on_of_nodup_map hids hx hdmem
              rw [beq_iff_eq] at hid
              rw [hid, hfields.1]
            rw [hid]
            simp only [if_true]
            constructor
            · rw [hfields.2.1, hxd]
            · rw [hfields.2.2.2.1, hxd, hdkey]
          · simp only [Bool.not_eq_true] at hid
            rw [hid]
            simp
      | none =>
        rw [hop, pushCreate_created_eq ctx user db op hn hfa hfd]
        show (userUrlKeys user (log_sync_event _ user _ _ _ _).bookmarks).Nodup
        simp only [log_sync_event]
        rw [userUrlKeys_append_single]
        have hu : ((newBookmarkFromPush ctx user db op).userId == user) = true :=
          beq_self_eq_true _
        rw [hu, if_pos rfl]
        have hnot : (newBookmarkFromPush ctx user db op).normalizedUrl ∉
            userUrlKeys user db.bookmarks := by
          intro hker
          simp only [userUrlKeys, List.mem_map] at hker
          obtain ⟨x, hxf, hxkey⟩ := hker
          have hxmem : x ∈ db.bookmarks := List.mem_of_mem_filter hxf
          have hxu : (x.userId == user) = true := (List.mem_filter.mp hxf).2
          have hxkey2 : x.normalizedUrl = ctx.normalizeUrl (pushCreateRawUrl op) := hxkey
          cases hdel : x.deletedAt with
          | none =>
            have : activeUrlMatch user (ctx.normalizeUrl (pushCreateRawUrl op)) x = true := by
              simp [activeUrlMatch, hxu, hxkey2, hdel]
            have := List.find?_eq_none.mp hfa x hxmem
            simp_all
          | some t =>
            have hmatch : deletedUrlMatch user (ctx.normalizeUrl (pushCreateRawUrl op)) x
                = true := by
              simp [deletedUrlMatch, hxu, hxkey2, hdel]
            have hxfil : x ∈ db.bookmarks.filter (deletedUrlMatch user
                (ctx.normalizeUrl (pushCreateRawUrl op))) := List.mem_filter.mpr ⟨hxmem, hmatch⟩
            have := (firstByUpdatedAtDesc_eq_none_iff _).mp hfd
            rw [this] at hxfil
            simp at hxfil
        simp [List.nodup_append, hkeys, hnot]


theorem createServerBookmark_fst_none (ctx : SyncCtx) (user : Nat) (db : Db)
    (item : LocalBookmarkRow) (fm : List (String × Nat)) (pc : Bool) :
    (_create_server_bookmark_from_local ctx user db item fm pc).1 = none ↔
      ctx.normalizeUrl (pyStrip item.url) = "" := by
  unfold _create_server_bookmark_from_local
  by_cases h : ctx.normalizeUrl (pyStrip item.url) = "" <;> simp [h]

theorem twoWayPairLoop_invariant (ctx : SyncCtx) (user : Nat)
    (server : List Bookmark) (folderMap : List (String × Nat)) :
    ∀ (locals : List LocalBookmarkRow) (acc : TwoWayAcc), acc.used.Nodup →
      ((twoWayPairLoop ctx user server folderMap locals acc).used.Nodup ∧
       (∀ i ∈ (twoWayPairLoop ctx user server folderMap locals acc).used,
          (∃ b ∈ server, b.id = i) ∨ i ∈ acc.used) ∧
       ((∀ item ∈ locals, ctx.normalizeUrl (pyStrip item.url) ≠ "") →
          (twoWayPairLoop ctx user server folderMap locals acc).used.length +
            (twoWayPairLoop ctx user server folderMap locals acc).createdCount =
          acc.used.length + acc.createdCount + locals.length)) := by
  intro locals
  induction locals with
  | nil =>
    intro acc h
    exact ⟨h, fun i hi => Or.inr hi, fun _ => by simp [twoWayPairLoop]⟩
  | cons item rest ih =>
    intro acc h
    cases hfind : server.find? (fun b =>
        b.normalizedUrl == item.normalizedUrl && !acc.used.contains b.id) with
    | some m =>
      have hm := List.find?_some hfind
      have hmem := List.mem_of_find?_eq_some hfind
      simp only [Bool.and_eq_true, Bool.not_eq_true', beq_iff_eq] at hm
      have hnotin : m.id ∉ acc.used := by
        intro hcontra
        have hc : acc.used.contains m.id = true := List.elem_eq_true_of_mem hcontra
        rw [hc] at hm
        simp at hm
      have hnodup2 : (acc.used ++ [m.id]).Nodup := by
        simp [List.nodup_append, h, hnotin]
      have ih2 := ih { acc with
        used := acc.used ++ [m.id],
        bookmarkMap := if strTruthy item.id then assocSet acc.bookmarkMap (item.id.getD "") m.id
          else acc.bookmarkMap } hnodup2
      simp only [twoWayPairLoop, hfind]
      refine ⟨ih2.1, ?_, ?_⟩
      · intro i hi
        rcases ih2.2.1 i hi with hsrv | hacc
        · exact Or.inl hsrv
        · simp only [List.mem_append, List.mem_singleton] at hacc
          rcases hacc with hacc | rfl
          · exact Or.inr hacc
          · exact Or.inl ⟨m, hmem, rfl⟩
      · intro hv
        have h3 := ih2.2.2 (fun it hit => hv it (List.mem_cons_of_mem _ hit))
        dsimp only at h3
        rw [List.length_append, List.length_singleton] at h3
        rw [List.length_cons]
        exact h3.trans (by omega)
    | none =>
      cases hcr : _create_server_bookmark_from_local ctx user acc.db item folderMap true with
      | mk created db2 =>
        cases created with
        | none =>
          have ih2 := ih { acc with db := db2 } h
          simp only [twoWayPairLoop, hfind, hcr]
          refine ⟨ih2.1, ih2.2.1, ?_⟩
          · intro hv
            have hnone : (_create_server_bookmark_from_local ctx user acc.db item
                folderMap true).1 = none := by rw [hcr]
            exact absurd ((createServerBookmark_fst_none ctx user acc.db item
              folderMap true).mp hnone) (hv item (List.mem_cons_self _ _))
        | some c =>
          have ih2 := ih { acc with
            createdCount := acc.createdCount + 1,
            bookmarkMap := if strTruthy item.id then assocSet acc.bookmarkMap (item.id.getD "") c.id
              else acc.bookmarkMap,
            db := db2 } h
          simp only [twoWayPairLoop, hfind, hcr]
          refine ⟨ih2.1, ih2.2.1, ?_⟩
          · intro hv
            have h3 := ih2.2.2 (fun it hit => hv it (List.mem_cons_of_mem _ hit))
            dsimp only at h3
            rw [List.length_cons]
            exact h3.trans (by omega)

/-- C3 witness: the dedup theorem instantiated twice — a create against the
active `bmark1` is a no-op `exists`, and a create against the soft-deleted
`bmarkDeleted` restores in place with status `restored` and no new row. -/
theorem C3_push_create_dedup_witness :
    (pyLower (opCreateA.op.getD "") = "create" ∧
      ctxNone.normalizeUrl (pushCreateRawUrl opCreateA) ≠ "") ∧
    ((_apply_bookmark_push_operation ctxNone 7 db1 opCreateA).1.status = "exists" ∧
      (_apply_bookmark_push_operation ctxNone 7 db1 opCreateA).2 = db1) ∧
    ((_apply_bookmark_push_operation ctxNone 7 dbDel opCreateA).1.status = "restored" ∧
      (_apply_bookmark_push_operation ctxNone 7 dbDel opCreateA).2.bookmarks.length =
        dbDel.bookmarks.length) :=
  ⟨⟨rfl, by decide⟩,
   (C3_push_create_dedup ctxNone 7 db1 opCreateA rfl (by decide)).1 (by decide),
   ⟨((C3_push_create_dedup ctxNone 7 dbDel opCreateA rfl (by decide)).2.1
      (by decide) (by decide)).1,
    ((C3_push_create_dedup ctxNone 7 dbDel opCreateA rfl (by decide)).2.1
      (by decide) (by decide)).2.1⟩⟩

/-- C5: the two-way merge pairing is one-to-one.  In general, the set of
matched server ids is duplicate-free and drawn from the server bookmarks,
and (when every local URL normalizes non-trivially, as the request parser
guarantees) matches plus creations account for every local bookmark.  In
particular, for local multiset `{A, A, B}` against server `{A}`, exactly one
local A is matched to the server A and exactly two server bookmarks are
created. -/
theorem C5_two_way_pairing_one_to_one :
    (∀ (ctx : SyncCtx) (user : Nat) (server : List Bookmark)
        (folderMap : List (String × Nat)) (locals : List LocalBookmarkRow) (db : Db),
      ((twoWayPairLoop ctx user server folderMap locals
          { used := [], bookmarkMap := [], createdCount := 0, db := db }).used.Nodup) ∧
      (∀ i ∈ (twoWayPairLoop ctx user server folderMap locals
          { used := [], bookmarkMap := [], createdCount := 0, db := db }).used,
        ∃ b ∈ server, b.id = i) ∧
      ((∀ item ∈ locals, ctx.normalizeUrl (pyStrip item.url) ≠ "") →
        (twoWayPairLoop ctx user server folderMap locals
            { used := [], bookmarkMap := [], createdCount := 0, db := db }).used.length +
          (twoWayPairLoop ctx user server folderMap locals
            { used := [], bookmarkMap := [], createdCount := 0, db := db }).createdCount =
        locals.length)) ∧
    ((_two_way_merge_snapshot ctxNone 7 dbC5 [] localsC5).2.2.1.1 = 2 ∧
     (_two_way_merge_snapshot ctxNone 7 dbC5 [] localsC5).2.1 =
       [("l1", 10), ("l2", 11), ("l3", 12)] ∧
     (twoWayPairLoop ctxNone 7 (_active_server_bookmarks dbC5 7) [] localsC5
       { used := [], bookmarkMap := [], createdCount := 0, db := dbC5 }).used = [10]) := by
  refine ⟨?_, by decide, by decide, by decide⟩
  intro ctx user server folderMap locals db
  have inv := twoWayPairLoop_invariant ctx user server folderMap locals
    { used := [], bookmarkMap := [], createdCount := 0, db := db } List.nodup_nil
  refine ⟨inv.1, ?_, ?_⟩
  · intro i hi
    exact (inv.2.1 i hi).resolve_right (by simp)
  · intro hv
    simpa using inv.2.2 hv

/-- C5 witness: the general pairing facts instantiated at the `{A,A,B}`
versus `{A}` inputs, with the parser-side URL premise discharged. -/
theorem C5_two_way_pairing_one_to_one_witness :
    ((twoWayPairLoop ctxNone 7 (_active_server_bookmarks dbC5 7) [] localsC5
        { used := [], bookmarkMap := [], createdCount := 0, db := dbC5 }).used.Nodup) ∧
    (∀ item ∈ localsC5, ctxNone.normalizeUrl (pyStrip item.url) ≠ "") ∧
    ((twoWayPairLoop ctxNone 7 (_active_server_bookmarks dbC5 7) [] localsC5
        { used := [], bookmarkMap := [], createdCount := 0, db := dbC5 }).used.length +
      (twoWayPairLoop ctxNone 7 (_active_server_bookmarks dbC5 7) [] localsC5
        { used := [], bookmarkMap := [], createdCount := 0, db := dbC5 }).createdCount =
      localsC5.length) :=
  ⟨(C5_two_way_pairing_one_to_one.1 ctxNone 7 (_active_server_bookmarks dbC5 7)
      [] localsC5 dbC5).1,
   by decide,
   (C5_two_way_pairing_one_to_one.1 ctxNone 7 (_active_server_bookmarks dbC5 7)
      [] localsC5 dbC5).2.2 (by decide)⟩

theorem isAncestor_parent_edge {fs : List Folder} {a b : Nat}
    (h : IsAncestor fs a b) : ∃ f ∈ fs, f.parentId = some a := by
  induction h with
  | parent hf hp => exact ⟨_, hf, hp⟩
  | step _ _ _ ih => exact ih

theorem isAncestor_append_elim {fs : List Folder} {g : Folder}
    (hg : ∀ f ∈ fs, f.parentId ≠ some g.id) (hgp : g.parentId ≠ some g.id)
    {a b : Nat} (h : IsAncestor (fs ++ [g]) a b) :
    IsAncestor fs a b ∨
      (b = g.id ∧ (g.parentId = some a ∨ ∃ p, g.parentId = some p ∧ IsAncestor fs a p)) := by
  induction h with
  | @parent f p hf hp =>
    rcases List.mem_append.mp hf with hf2 | hf2
    · exact Or.inl (IsAncestor.parent hf2 hp)
    · have : f = g := List.mem_singleton.mp hf2
      subst this
      exact Or.inr ⟨rfl, Or.inl hp⟩
  | @step f p a hf hp hin ih =>
    rcases List.mem_append.mp hf with hf2 | hf2
    · rcases ih with hleft | ⟨hpg, _⟩
      · exact Or.inl (IsAncestor.step hf2 hp hleft)
      · exact absurd (hpg ▸ hp) (hg f hf2)
    · have : f = g := List.mem_singleton.mp hf2
      subst this
      rcases ih with hleft | ⟨hpg, _⟩
      · exact Or.inr ⟨rfl, Or.inr ⟨p, hp, hleft⟩⟩
      · exact absurd (hpg ▸ hp) hgp

theorem goodInsert {db : Db} (h : GoodFolderStore db) {g : Folder}
    (hgid : g.id = db.nextFolderId)
    (hgpb : ∀ p, g.parentId = some p → p < db.nextFolderId)
    {db2 : Db} (hfolders : db2.folders = db.folders ++ [g])
    (hnext : db2.nextFolderId = db.nextFolderId + 1) :
    GoodFolderStore db2 := by
  have hg : ∀ f ∈ db.folders, f.parentId ≠ some g.id := by
    intro f hf hcontra
    have := (h.1 f hf).2 g.id hcontra
    omega
  have hgp : g.parentId ≠ some g.id := by
    intro hcontra
    have := hgpb g.id hcontra
    omega
  constructor
  · intro f hf
    rw [hfolders] at hf
    rcases List.mem_append.mp hf with hf2 | hf2
    · have h2 := h.1 f hf2
      constructor
      · omega
      · intro p hp
        have := h2.2 p hp
        omega
    · have : f = g := List.mem_singleton.mp hf2
      subst this
      constructor
      · omega
      · intro p hp
        have := hgpb p hp
        omega
  · intro a hcontra
    rw [hfolders] at hcontra
    rcases isAncestor_append_elim hg hgp hcontra with hleft | ⟨hbg, hrest⟩
    · exact h.2 a hleft
    · subst hbg
      rcases hrest with hpa | ⟨p, hp, hanc⟩
      · exact hgp hpa
      · obtain ⟨f, hf, hfp⟩ := isAncestor_parent_edge hanc
        exact hg f hf hfp

theorem lookupOrCreateFolder_inv (ctx : SyncCtx) (user : Nat) (db : Db)
    (name : String) (pid : Option Nat) (h : GoodFolderStore db)
    (hp : ∀ p, pid = some p → p < db.nextFolderId) :
    GoodFolderStore (lookupOrCreateFolder ctx user db name pid).2 ∧
    db.nextFolderId ≤ (lookupOrCreateFolder ctx user db name pid).2.nextFolderId ∧
    (lookupOrCreateFolder ctx user db name pid).1.id <
      (lookupOrCreateFolder ctx user db name pid).2.nextFolderId := by
  unfold lookupOrCreateFolder
  cases hfind : db.folders.find? (fun f =>
      f.userId == user && f.name == name && f.parentId == pid) with
  | some f =>
    have hmem := List.mem_of_find?_eq_some hfind
    exact ⟨h, Nat.le_refl _, (h.1 f hmem).1⟩
  | none =>
    refine ⟨?_, Nat.le_succ _, Nat.lt_succ_self _⟩
    exact goodInsert h rfl hp rfl rfl

theorem assocSet_bounded {m : List (String × Nat)} {n : Nat} (h : MappingBounded m n)
    {k : String} {v : Nat} (hv : v < n) : MappingBounded (assocSet m k v) n := by
  unfold assocSet
  split
  · intro kv hkv
    obtain ⟨kv0, hkv0, hmap⟩ := List.mem_map.mp hkv
    by_cases hk : (kv0.1 == k) = true
    · rw [hk] at hmap
      simp only [if_true] at hmap
      rw [← hmap]
      exact hv
    · simp only [Bool.not_eq_true] at hk
      rw [hk] at hmap
      simp only [Bool.false_eq_true, if_false] at hmap
      rw [← hmap]
      exact h kv0 hkv0
  · intro kv hkv
    rcases List.mem_append.mp hkv with h2 | h2
    · exact h kv h2
    · have : kv = (k, v) := List.mem_singleton.mp h2
      rw [this]
      exact hv

theorem cacheSet_bounded {c : FolderCache} {n : Nat} (h : CacheBounded c n)
    {k : Option Nat × String} {v : Nat} (hv : v < n) : CacheBounded (cacheSet c k v) n := by
  unfold cacheSet
  split
  · intro kv hkv
    obtain ⟨kv0, hkv0, hmap⟩ := List.mem_map.mp hkv
    by_cases hk : (kv0.1 == k) = true
    · rw [hk] at hmap
      simp only [if_true] at hmap
      rw [← hmap]
      exact hv
    · simp only [Bool.not_eq_true] at hk
      rw [hk] at hmap
      simp only [Bool.false_eq_true, if_false] at hmap
      rw [← hmap]
      exact h kv0 hkv0
  · intro kv hkv
    rcases List.mem_append.mp hkv with h2 | h2
    · exact h kv h2
    · have : kv = (k, v) := List.mem_singleton.mp h2
      rw [this]
      exact hv

theorem mappingBounded_mono {m : List (String × Nat)} {n n2 : Nat}
    (h : MappingBounded m n) (hle : n ≤ n2) : MappingBounded m n2 :=
  fun kv hkv => Nat.lt_of_lt_of_le (h kv hkv) hle

theorem cacheBounded_mono {c : FolderCache} {n n2 : Nat}
    (h : CacheBounded c n) (hle : n ≤ n2) : CacheBounded c n2 :=
  fun kv hkv => Nat.lt_of_lt_of_le (h kv hkv) hle

theorem mappingGet_bounded {m : List (String × Nat)} {n : Nat} (h : MappingBounded m n)
    (k : Option String) : ∀ p, mappingGet m k = some p → p < n := by
  intro p hp
  cases k with
  | none => simp [mappingGet] at hp
  | some s =>
    simp only [mappingGet] at hp
    cases hfind : m.find? (fun kv => kv.1 == s) with
    | none => rw [hfind] at hp; simp at hp
    | some kv =>
      rw [hfind] at hp
      have hp2 : kv.2 = p := by
        simpa using hp
      rw [← hp2]
      exact h kv (List.mem_of_find?_eq_some hfind)

theorem cacheGet_bounded {c : FolderCache} {n : Nat} (h : CacheBounded c n)
    (k : Option Nat × String) : ∀ p, cacheGet c k = some p → p < n := by
  intro p hp
  simp only [cacheGet] at hp
  cases hfind : List.find? (fun kv => kv.1 == k) c with
  | none => rw [hfind] at hp; simp at hp
  | some kv =>
    rw [hfind] at hp
    have hp2 : kv.2 = p := by simpa using hp
    rw [← hp2]
    exact h kv (List.mem_of_find?_eq_some hfind)

theorem materializeRow_inv (ctx : SyncCtx) (user : Nat) (st : ReconcileState)
    (row : LocalFolderRow) (h : ReconcileInv st) :
    ReconcileInv (materializeRow ctx user st row) ∧
    st.db.nextFolderId ≤ (materializeRow ctx user st row).db.nextFolderId := by
  have hpar : ∀ p, mappingGet st.mapping row.parentId = some p → p < st.db.nextFolderId :=
    mappingGet_bounded h.2.1 row.parentId
  have hl := lookupOrCreateFolder_inv ctx user st.db row.title
    (mappingGet st.mapping row.parentId) h.1 hpar
  unfold materializeRow
  refine ⟨⟨hl.1, ?_, ?_⟩, hl.2.1⟩
  · exact assocSet_bounded (mappingBounded_mono h.2.1 hl.2.1) hl.2.2
  · exact cacheSet_bounded (cacheBounded_mono h.2.2 hl.2.1) hl.2.2

theorem reconcilePass_inv (ctx : SyncCtx) (user : Nat) :
    ∀ (l : List LocalFolderRow) (st : ReconcileState), ReconcileInv st →
      ReconcileInv (reconcilePass ctx user l st).st ∧
      st.db.nextFolderId ≤ (reconcilePass ctx user l st).st.db.nextFolderId := by
  intro l
  induction l with
  | nil => intro st h; exact ⟨h, Nat.le_refl _⟩
  | cons row rest ih =>
    intro st h
    by_cases hskip : (strTruthy row.parentId && !mappingHasKey st.mapping row.parentId) = true
    · simp only [reconcilePass, hskip, if_true]
      exact ih st h
    · simp only [reconcilePass, hskip, Bool.false_eq_true, if_false]
      have hm := materializeRow_inv ctx user st row h
      have := ih (materializeRow ctx user st row) hm.1
      exact ⟨this.1, Nat.le_trans hm.2 this.2⟩

theorem reconcileFallback_inv (ctx : SyncCtx) (user : Nat) :
    ∀ (l : List LocalFolderRow) (st : ReconcileState), ReconcileInv st →
      ReconcileInv (reconcileFallback ctx user l st) := by
  intro l
  induction l with
  | nil => intro st h; exact h
  | cons row rest ih =>
    intro st h
    have hl := lookupOrCreateFolder_inv ctx user st.db row.title none h.1
      (fun p hp => by cases hp)
    simp only [reconcileFallback]
    apply ih
    exact ⟨hl.1, assocSet_bounded (mappingBounded_mono h.2.1 hl.2.1) hl.2.2,
      cacheSet_bounded (cacheBounded_mono h.2.2 hl.2.1) hl.2.2⟩

theorem reconcileLoopAux_inv (ctx : SyncCtx) (user : Nat) :
    ∀ (fuel : Nat) (pending : List LocalFolderRow) (st : ReconcileState),
      ReconcileInv st → ReconcileInv (reconcileLoopAux ctx user fuel pending st) := by
  intro fuel
  induction fuel with
  | zero => intro pending st h; exact h
  | succ fuel ih =>
    intro pending st h
    simp only [reconcileLoopAux]
    split
    · exact h
    · have hp := reconcilePass_inv ctx user pending st h
      split
      · exact ih _ _ hp.1
      · exact reconcileFallback_inv ctx user _ _ hp.1

theorem ensurePathGo_inv (ctx : SyncCtx) (user : Nat) :
    ∀ (parts : List String) (parent : Option Nat) (db : Db) (cache : FolderCache),
      GoodFolderStore db → CacheBounded cache db.nextFolderId →
      (∀ p, parent = some p → p < db.nextFolderId) →
      GoodFolderStore (ensurePathGo ctx user parts parent db cache).2.1 ∧
      db.nextFolderId ≤ (ensurePathGo ctx user parts parent db cache).2.1.nextFolderId ∧
      CacheBounded (ensurePathGo ctx user parts parent db cache).2.2
        (ensurePathGo ctx user parts parent db cache).2.1.nextFolderId ∧
      (∀ p, (ensurePathGo ctx user parts parent db cache).1 = some p →
        p < (ensurePathGo ctx user parts parent db cache).2.1.nextFolderId) := by
  intro parts
  induction parts with
  | nil =>
    intro parent db cache hdb hcache hparent
    exact ⟨hdb, Nat.le_refl _, hcache, hparent⟩
  | cons part rest ih =>
    intro parent db cache hdb hcache hparent
    by_cases hname : pyStrip part = ""
    · simp only [ensurePathGo, hname, if_true]
      exact ih parent db cache hdb hcache hparent
    · simp only [ensurePathGo, hname, if_false]
      cases hcg : cacheGet cache (parent, pyStrip part) with
      | some fid =>
        exact ih (some fid) db cache hdb hcache
          (fun p hp => by cases hp; exact cacheGet_bounded hcache _ fid hcg)
      | none =>
        have hl := lookupOrCreateFolder_inv ctx user db (pyStrip part) parent hdb hparent
        have hc2 : CacheBounded (cacheSet cache (parent, pyStrip part)
            (lookupOrCreateFolder ctx user db (pyStrip part) parent).1.id)
            (lookupOrCreateFolder ctx user db (pyStrip part) parent).2.nextFolderId :=
          cacheSet_bounded (cacheBounded_mono hcache hl.2.1) hl.2.2
        have := ih (some (lookupOrCreateFolder ctx user db (pyStrip part) parent).1.id)
          (lookupOrCreateFolder ctx user db (pyStrip part) parent).2
          (cacheSet cache (parent, pyStrip part)
            (lookupOrCreateFolder ctx user db (pyStrip part) parent).1.id)
          hl.1 hc2 (fun p hp => by cases hp; exact hl.2.2)
        exact ⟨this.1, Nat.le_trans hl.2.1 this.2.1, this.2.2.1, this.2.2.2⟩

theorem reconcileBookmarkPass_inv (ctx : SyncCtx) (user : Nat) :
    ∀ (l : List LocalBookmarkRow) (st : ReconcileState), ReconcileInv st →
      ReconcileInv (reconcileBookmarkPass ctx user l st) := by
  intro l
  induction l with
  | nil => intro st h; exact h
  | cons bm rest ih =>
    intro st h
    by_cases h1 : (strTruthy bm.folderLocalId && mappingHasKey st.mapping bm.folderLocalId) = true
    · simp only [reconcileBookmarkPass, h1, if_true]
      exact ih st h
    · simp only [reconcileBookmarkPass, h1, Bool.false_eq_true, if_false]
      by_cases h2 : bm.folderPath ≠ []
      · rw [if_pos h2]
        have hep := ensurePathGo_inv ctx user bm.folderPath none st.db st.cache
          h.1 h.2.2 (fun p hp => by cases hp)
        apply ih
        refine ⟨hep.1, ?_, hep.2.2.1⟩
        by_cases h3 : (strTruthy bm.folderLocalId &&
            natTruthy (ensurePathGo ctx user bm.folderPath none st.db st.cache).1) = true
        · simp only [h3, if_true]
          have h4 := (Bool.and_eq_true _ _).mp h3
          cases hens : (ensurePathGo ctx user bm.folderPath none st.db st.cache).1 with
          | none => rw [hens] at h4; simp [natTruthy] at h4
          | some v =>
            have hv : v < (ensurePathGo ctx user bm.folderPath none st.db
                st.cache).2.1.nextFolderId := hep.2.2.2 v hens
            simp only [Option.getD_some]
            exact assocSet_bounded (mappingBounded_mono h.2.1 hep.2.1) hv
        · simp only [h3, Bool.false_eq_true, if_false]
          exact mappingBounded_mono h.2.1 hep.2.1
      · rw [if_neg h2]
        exact ih st h

theorem goodEmptyStore : GoodFolderStore dbEmpty := by
  constructor
  · intro f hf
    exact absurd hf (List.not_mem_nil _)
  · intro a hcontra
    cases hcontra with
    | parent hf _ => exact absurd hf (List.not_mem_nil _)
    | step hf _ _ => exact absurd hf (List.not_mem_nil _)

/-- C7: the folder reconciler terminates on every explicit local-id/parent-id
edge list (the embedding's loop is structurally total, justified by
`reconcilePass_pending_length`) and never produces a cycle: starting from a
well-formed acyclic folder store, the store after
`_ensure_server_folders_from_local` is again well-formed and acyclic — no
folder is its own ancestor. -/
theorem C7_reconcile_terminates_acyclic (ctx : SyncCtx) (user : Nat) (db : Db)
    (localFolders : List LocalFolderRow) (localBookmarks : List LocalBookmarkRow)
    (h : GoodFolderStore db) :
    GoodFolderStore
      (_ensure_server_folders_from_local ctx user db localFolders localBookmarks).2 := by
  unfold _ensure_server_folders_from_local reconcileLoop
  have h0 : ReconcileInv { db := db, mapping := [], cache := [] } :=
    ⟨h, fun kv hkv => absurd hkv (List.not_mem_nil _),
      fun kv hkv => absurd hkv (List.not_mem_nil _)⟩
  have h1 := reconcileLoopAux_inv ctx user localFolders.length localFolders _ h0
  exact (reconcileBookmarkPass_inv ctx user localBookmarks _ h1).1

/-- C7 witness: the cyclic edge list `{id 1, parent 2}, {id 2, parent 1}` on
an empty store terminates with both folders force-attached at the root, and
the resulting store is acyclic. -/
theorem C7_reconcile_terminates_acyclic_witness :
    GoodFolderStore dbEmpty ∧
    (_ensure_server_folders_from_local ctxNone 7 dbEmpty rowsCycle []).2.folders.map
      (fun f => (f.id, f.name, f.parentId)) = [(1, "F1", none), (2, "F2", none)] ∧
    StoreAcyclic (_ensure_server_folders_from_local ctxNone 7 dbEmpty rowsCycle []).2 :=
  ⟨goodEmptyStore, by decide,
   (C7_reconcile_terminates_acyclic ctxNone 7 dbEmpty rowsCycle [] goodEmptyStore).2⟩

/-- C8 (amended): every rejection path of the `sync_first_apply` gate section
leaves the store untouched; all phrase/checkbox failures share the one
wording `destructive confirmation failed`, and all token failures (bad
signature, expiry, user/client/mode mismatch — `verify_confirmation_token`
returns `None` for each) share the one wording
`invalid or expired confirmation token`; the two gates' wordings differ, so
which gate failed is distinguishable. -/
theorem C8_gate_rejections (loads : String → Option TokenPayload) (user : Nat)
    (db : Db) (req : SyncApplyRequest) :
    ((sync_first_apply_gates loads user req db).2 = db) ∧
    (¬ (pyStrip (req.clientId.getD "") = "" ∨ ¬ strTruthy req.confirmationToken ∨
        _normalize_sync_mode req.mode = "") →
      (pyStrip (req.typedPhrase.getD "") ≠
          (SYNC_CONFIRM_PHRASES (_normalize_sync_mode req.mode)).getD CONFIRM_PHRASE ∨
        _to_bool req.confirmChecked false = false) →
      (sync_first_apply_gates loads user req db).1 =
        .rejected 400 "destructive confirmation failed") ∧
    (¬ (pyStrip (req.clientId.getD "") = "" ∨ ¬ strTruthy req.confirmationToken ∨
        _normalize_sync_mode req.mode = "") →
      ¬ (pyStrip (req.typedPhrase.getD "") ≠
          (SYNC_CONFIRM_PHRASES (_normalize_sync_mode req.mode)).getD CONFIRM_PHRASE ∨
        _to_bool req.confirmChecked false = false) →
      verify_confirmation_token loads (req.confirmationToken.getD "") user
        (pyStrip (req.clientId.getD "")) (some (_normalize_sync_mode req.mode)) = none →
      (sync_first_apply_gates loads user req db).1 =
        .rejected 400 "invalid or expired confirmation token") ∧
    (("destructive confirmation failed" : String) ≠ "invalid or expired confirmation token") := by
  refine ⟨?_, ?_, ?_, by decide⟩
  · unfold sync_first_apply_gates
    dsimp only
    split
    · rfl
    · split
      · rfl
      · split <;> rfl
  · intro h1 h2
    unfold sync_first_apply_gates
    dsimp only
    rw [if_neg h1, if_pos h2]
  · intro h1 h2 hv
    unfold sync_first_apply_gates
    dsimp only
    rw [if_neg h1, if_neg h2, hv]

/-- C8 witness: the theorem applied to a wrong-phrase request and to a
bad-token request, with the store returned unchanged. -/
theorem C8_gate_rejections_witness :
    (sync_first_apply_gates loadsC8 7 reqWrongPhrase db1).1 =
      .rejected 400 "destructive confirmation failed" ∧
    (sync_first_apply_gates loadsC8 7 reqBadToken db1).1 =
      .rejected 400 "invalid or expired confirmation token" ∧
    (sync_first_apply_gates loadsC8 7 reqWrongPhrase db1).2 = db1 :=
  ⟨(C8_gate_rejections loadsC8 7 db1 reqWrongPhrase).2.1 (by decide) (by decide),
   (C8_gate_rejections loadsC8 7 db1 reqBadToken).2.2.1 (by decide) (by decide) (by decide),
   (C8_gate_rejections loadsC8 7 db1 reqWrongPhrase).1⟩

/-- C4 (amended): pull returns exactly the user's events with `id > since`
in ascending id order truncated at `limit` (membership, sortedness, length
`min limit matching`, and completeness when the matching set fits the
limit), with cursor the id of the last returned event (or the requested
`since` when none is returned); `has_more` is set exactly when the returned
page length equals `limit` — not when matching events actually remain. -/
theorem C4_pull_contract (db : Db) (user since limit : Nat) :
    (∀ e ∈ (sync_pull db user since limit).events,
      e ∈ db.events ∧ e.userId = user ∧ since < e.id) ∧
    ((sync_pull db user since limit).events.Sorted eventIdLe) ∧
    ((sync_pull db user since limit).events.length =
      min limit (db.events.filter (fun e => e.userId == user && since < e.id)).length) ∧
    ((db.events.filter (fun e => e.userId == user && since < e.id)).length ≤ limit →
      ∀ e ∈ db.events, e.userId = user → since < e.id →
        e ∈ (sync_pull db user since limit).events) ∧
    ((sync_pull db user since limit).cursor =
      (match (sync_pull db user since limit).events.getLast? with
       | some e => e.id
       | none => since)) ∧
    ((sync_pull db user since limit).hasMore = true ↔
      (sync_pull db user since limit).events.length = limit) := by
  refine ⟨?_, ?_, ?_, ?_, rfl, ?_⟩
  · intro e he
    have h1 : e ∈ (db.events.filter (fun e => e.userId == user && since < e.id)).insertionSort
        eventIdLe := List.take_subset _ _ he
    have h2 : e ∈ db.events.filter (fun e => e.userId == user && since < e.id) :=
      (List.perm_insertionSort eventIdLe _).mem_iff.mp h1
    have h3 := List.mem_filter.mp h2
    refine ⟨h3.1, ?_, ?_⟩
    · have := h3.2
      simp only [Bool.and_eq_true, beq_iff_eq, decide_eq_true_eq] at this
      exact this.1
    · have := h3.2
      simp only [Bool.and_eq_true, beq_iff_eq, decide_eq_true_eq] at this
      exact this.2
  · exact List.Pairwise.sublist (List.take_sublist _ _)
      (List.sorted_insertionSort eventIdLe _)
  · simp [sync_pull, List.length_take, List.length_insertionSort]
  · intro hlen e he hu hid
    have hmem : e ∈ db.events.filter (fun e => e.userId == user && since < e.id) := by
      refine List.mem_filter.mpr ⟨he, ?_⟩
      simp [hu, hid]
    have hlen2 : ((db.events.filter (fun e => e.userId == user && since < e.id)).insertionSort
        eventIdLe).length ≤ limit := by
      rw [List.length_insertionSort]; exact hlen
    show e ∈ ((db.events.filter (fun e => e.userId == user && since < e.id)).insertionSort
        eventIdLe).take limit
    rw [List.take_of_length_le hlen2]
    exact (List.perm_insertionSort eventIdLe _).mem_iff.mpr hmem
  · simp [sync_pull]

/-- C4 counterexample to the claim as stated: with events 1 and 2 matching
`since = 0` and `limit = 2`, the page holds every matching event (none
remain beyond it), yet `has_more` is reported `true`, because the code only
compares the page length with `limit`. -/
theorem C4_has_more_without_remaining_events :
    (sync_pull dbEv 7 0 2).hasMore = true ∧
    (sync_pull dbEv 7 0 2).events = [ev1, ev2] ∧
    (dbEv.events.filter (fun e => e.userId == 7 && 0 < e.id)).length = 2 :=
  ⟨by decide, by decide, by decide⟩

/-- C8 counterexample to the claim as stated: a wrong typed phrase and an
invalid token are rejected with different error wordings, so
confirmation-gate failures are not indistinguishable in wording. -/
theorem C8_distinct_gate_wordings :
    sync_first_apply_gates loadsC8 7 reqWrongPhrase db1 =
      (.rejected 400 "destructive confirmation failed", db1) ∧
    sync_first_apply_gates loadsC8 7 reqBadToken db1 =
      (.rejected 400 "invalid or expired confirmation token", db1) ∧
    (("destructive confirmation failed" : String) ≠ "invalid or expired confirmation token") :=
  ⟨by decide, by decide, by decide⟩

end LinkLoom
